import Mathlib

/-!
Verification development for the unified anime bot (`bot.py`).

The Python source works on strings via regular expressions.  We embed the
relevant functions as executable Lean definitions over `List Char`, with
`String` wrappers keeping the source's names.  Each regular expression of
the source is compiled by hand into a deterministic scanner; where the
regex engine's backtracking order matters (lazy `.+?` groups, greedy `\s*`
before a lazy group) the scanner reproduces the engine's priority order
explicitly (greedy pieces take maximal runs first, lazy pieces grow from
the shortest candidate).  `re.IGNORECASE` is modelled as ASCII case
folding; the non-ASCII decorative characters appearing in some patterns
are kept verbatim (they have no ASCII case pairs relevant to any input
considered here).
-/

/-- ASCII lower-casing on codepoints, used to model `re.IGNORECASE` and
Python `str.lower()` for the ASCII range. -/
def lowAsciiN (n : Nat) : Nat := if 65 ≤ n ∧ n ≤ 90 then n + 32 else n

/-- Case-insensitive character comparison (ASCII folding). -/
def chEqCI (a b : Char) : Bool := lowAsciiN a.toNat == lowAsciiN b.toNat

/-- Python `str.lower()` restricted to ASCII letters. -/
def pyLowerCh (c : Char) : Char :=
  if 65 ≤ c.toNat ∧ c.toNat ≤ 90 then Char.ofNat (c.toNat + 32) else c

/-- `\d` of the Python patterns (ASCII digits). -/
def pyIsDigit (c : Char) : Bool := 48 ≤ c.toNat && c.toNat ≤ 57

/-- `\s` of the Python patterns and `str.strip()` whitespace
(space, tab, newline, carriage return, vertical tab, form feed). -/
def pyIsSpace (c : Char) : Bool :=
  c.toNat == 32 || c.toNat == 9 || c.toNat == 10 || c.toNat == 13 ||
  c.toNat == 11 || c.toNat == 12

/-- `\w` of the Python patterns (ASCII letters, digits, underscore). -/
def pyIsWord (c : Char) : Bool :=
  (48 ≤ c.toNat && c.toNat ≤ 57) || (65 ≤ c.toNat && c.toNat ≤ 90) ||
  (97 ≤ c.toNat && c.toNat ≤ 122) || c.toNat == 95

/-- Maximal run of digits at the front (the deterministic reading of a
greedy `\d+` whose follow set contains no digit). -/
def takeDigits : List Char → List Char × List Char
  | [] => ([], [])
  | c :: cs =>
    if pyIsDigit c then
      let p := takeDigits cs
      (c :: p.1, p.2)
    else ([], c :: cs)

/-- Maximal run of whitespace at the front (greedy `\s*`). -/
def takeSpaces : List Char → List Char × List Char
  | [] => ([], [])
  | c :: cs =>
    if pyIsSpace c then
      let p := takeSpaces cs
      (c :: p.1, p.2)
    else ([], c :: cs)

/-- Maximal run of word characters at the front (greedy `\w+`). -/
def takeWord : List Char → List Char × List Char
  | [] => ([], [])
  | c :: cs =>
    if pyIsWord c then
      let p := takeWord cs
      (c :: p.1, p.2)
    else ([], c :: cs)

/-- `re.search` over a prefix matcher: try the pattern at every start
position, leftmost first (also at the empty suffix, as Python does). -/
def searchO (m : List Char → Option α) : List Char → Option α
  | [] => m []
  | c :: cs =>
    match m (c :: cs) with
    | some r => some r
    | none => searchO m cs

/-- Python `needle in haystack` substring test. -/
def containsSub (hay pat : List Char) : Bool :=
  match hay with
  | [] => pat.isEmpty
  | _ :: t => if pat.isPrefixOf hay then true else containsSub t pat

/-- Python `str.startswith`. -/
def startsWithL (l pat : List Char) : Bool := pat.isPrefixOf l

/-- Python `str.strip()`. -/
def pyStrip (l : List Char) : List Char :=
  ((l.dropWhile pyIsSpace).reverse.dropWhile pyIsSpace).reverse

/-- Python `str.lower()` (ASCII part). -/
def pyLower (l : List Char) : List Char := l.map pyLowerCh

/-- Python `str.split('\n')`. -/
def splitNl : List Char → List (List Char)
  | [] => [[]]
  | c :: cs =>
    let r := splitNl cs
    if c = '\n' then [] :: r
    else
      match r with
      | h :: t => (c :: h) :: t
      | [] => [[c]]

/-- Python `int()` on a run of decimal digits. -/
def strToNat (l : List Char) : Nat :=
  l.foldl (fun a c => a * 10 + (c.toNat - 48)) 0

/-- Python `str.zfill(2)` on a digit run: left-pad with zeros to width 2
(padding only ever adds characters). -/
def zfill2 (l : List Char) : List Char :=
  if 2 ≤ l.length then l else List.replicate (2 - l.length) '0' ++ l

/-- Helper for `collapseWs`: `prevSpace` records whether we are inside a
whitespace run already replaced by one space. -/
def collapseWsAux (prevSpace : Bool) : List Char → List Char
  | [] => []
  | c :: cs =>
    if pyIsSpace c then
      if prevSpace then collapseWsAux true cs else ' ' :: collapseWsAux true cs
    else c :: collapseWsAux false cs

/-- Collapse every whitespace run to one space (`re.sub(r'\s+', ' ', s)`). -/
def collapseWs (l : List Char) : List Char := collapseWsAux false l

/-- The fixed recognized-quality table of the source
(`common_qualities` in `VideoFile.extract_video_quality`, also used by
`AnimeParser.extract_quality`). -/
def common_qualities : List Nat := [144, 240, 360, 480, 720, 1080, 1440, 2160]

/-! ### `VideoFile` (sequencing metadata) -/

/-- Require one exact character. -/
def reqCh (c : Char) : List Char → Option (List Char)
  | x :: xs => if x = c then some xs else none
  | [] => none

/-- Require one character, case-insensitively. -/
def reqCI (c : Char) : List Char → Option (List Char)
  | x :: xs => if chEqCI x c then some xs else none
  | [] => none

/-- Greedy `\d+`: at least one digit, maximal run. -/
def digits1 (l : List Char) : Option (List Char × List Char) :=
  let p := takeDigits l
  if p.1.isEmpty then none else some p

/-- Prefix matcher for `\[S\d+-E(\d+)\]` (case-sensitive, as in
`VideoFile.extract_episode_number`). -/
def trySeqEp (l : List Char) : Option (List Char) := do
  let r1 ← reqCh '[' l
  let r2 ← reqCh 'S' r1
  let (_, r3) ← digits1 r2
  let r4 ← reqCh '-' r3
  let r5 ← reqCh 'E' r4
  let (e, r6) ← digits1 r5
  let _ ← reqCh ']' r6
  pure e

/-- Prefix matcher for `\[(\d+)(P)?\]` (case-sensitive `P`). -/
def tryNumBracket (l : List Char) : Option (List Char) := do
  let r1 ← reqCh '[' l
  let (d, r2) ← digits1 r1
  match r2 with
  | ']' :: _ => pure d
  | 'P' :: ']' :: _ => pure d
  | _ => none

/-- Rightmost `\[(\d+)(P)?\]` before the first newline: the greedy `.*`
of `\[S\d+-E\d+\].*\[(\d+)(P)?\]` cannot cross `\n` and, being greedy,
selects the last such bracket. -/
def findLastNumBr : List Char → Option (List Char) → Option (List Char)
  | [], acc => acc
  | c :: cs, acc =>
    if c = '\n' then acc
    else
      findLastNumBr cs
        (match tryNumBracket (c :: cs) with
         | some d => some d
         | none => acc)

/-- Prefix matcher for `\[S\d+-E\d+\].*\[(\d+)(P)?\]`
(`VideoFile.extract_video_quality`). -/
def trySeqQual (l : List Char) : Option (List Char) := do
  let r1 ← reqCh '[' l
  let r2 ← reqCh 'S' r1
  let (_, r3) ← digits1 r2
  let r4 ← reqCh '-' r3
  let r5 ← reqCh 'E' r4
  let (_, r6) ← digits1 r5
  let r7 ← reqCh ']' r6
  findLastNumBr r7 none

/-- `VideoFile.extract_episode_number`: first text of
`[filename, caption]` containing the tag wins. -/
def extract_episode_number (filename caption : List Char) : Option Nat :=
  match searchO trySeqEp filename with
  | some d => some (strToNat d)
  | none =>
    match searchO trySeqEp caption with
    | some d => some (strToNat d)
    | none => none

/-- `VideoFile.extract_video_quality`: on the first text of
`[filename, caption]` that matches, the digits are accepted only when in
`common_qualities`; an unrecognized value yields `none` immediately. -/
def extract_video_quality (filename caption : List Char) : Option Nat :=
  match searchO trySeqQual filename with
  | some d =>
    if common_qualities.contains (strToNat d) then some (strToNat d) else none
  | none =>
    match searchO trySeqQual caption with
    | some d =>
      if common_qualities.contains (strToNat d) then some (strToNat d) else none
    | none => none

/-- The `VideoFile` value object of the source. -/
structure VideoFile where
  file_id : String
  filename : String
  caption : String
  file_type : String
  episode_number : Option Nat
  video_quality : Option Nat
deriving DecidableEq, Repr

/-- The `VideoFile.__init__` constructor: metadata is derived once from
filename and caption. -/
def mkVideoFile (fid fname cap ftype : String) : VideoFile :=
  { file_id := fid
    filename := fname
    caption := cap
    file_type := ftype
    episode_number := extract_episode_number fname.data cap.data
    video_quality := extract_video_quality fname.data cap.data }

/-! ### `AnimeParser` patterns

The decorative non-ASCII characters appearing verbatim in the source's
patterns (a stylised TV marker, stylised `EPISODE`/`QUALITY`/`AUDIO`
labels, a Tamil-script key) are reproduced below by codepoint. -/

/-- The TV-marker characters of the structured-emoji format. -/
def tvMarker : List Char :=
  [0xf8ff, 0xfc, 0xec, 0x222b].map Char.ofNat

/-- The stylised `EPISODE` label of the structured-emoji format. -/
def epLabelChars : List Char :=
  'E' :: ([0xb7, 0xa5, 0xf2, 0x2026, 0x2122, 0xcd, 0xfa, 0xb1, 0xb7, 0xa5,
           0xe8, 0xb7, 0xa5, 0xd6, 0xb7, 0xa5, 0xe1].map Char.ofNat)

/-- The stylised `QUALITY` label of the third quality pattern. -/
def qualLabelChars : List Char :=
  'Q' :: ([0xb7, 0xa5, 0xfa, 0xb7, 0xa5, 0xc4, 0xa0, 0xfc, 0x2026, 0x2122,
           0xb7, 0xa5, 0xf5, 0xa0, 0xe8].map Char.ofNat)

/-- The stylised `AUDIO` label of the language extractor. -/
def audioLabelChars : List Char :=
  'A' :: ([0xb7, 0xa5, 0xfa, 0xb7, 0xa5, 0xd6, 0x2026, 0x2122, 0xb7, 0xa5,
           0xe8].map Char.ofNat)

/-- The Tamil-script key of the language table. -/
def tamilKeyChars : List Char :=
  [0x2021, 0xc6, 0xa7, 0x2021, 0xc6, 0xc6, 0x2021, 0xc6, 0xf8, 0x2021,
   0xc6, 0xa5, 0x2021, 0xd8, 0xe7].map Char.ofNat

/-- The decorative package-marker glyphs skipped by the bulk parser. -/
def bulkMarker : List Char :=
  [0xf8ff, 0xfc, 0xec, 0xb6].map Char.ofNat

/-- Consume a fixed character sequence, case-insensitively. -/
def reqSeqCI : List Char → List Char → Option (List Char)
  | [], l => some l
  | p :: ps, c :: cs => if chEqCI c p then reqSeqCI ps cs else none
  | _ :: _, [] => none

/-- Suffix `\s+S(\d+)\s*EP(\d+)` of the `channel_se` pattern. -/
def tailSE (l : List Char) : Option (List Char × List Char) :=
  let p := takeSpaces l
  if p.1.isEmpty then none
  else do
    let r2 ← reqCI 'S' p.2
    let (s, r3) ← digits1 r2
    let r4 := (takeSpaces r3).2
    let r5 ← reqCI 'E' r4
    let r6 ← reqCI 'P' r5
    let (e, _) ← digits1 r6
    pure (s, e)

/-- Lazy `(.+?)` of `channel_se`: grow the capture from the shortest
candidate until `tailSE` matches the remainder ('.' cannot match a
newline). -/
def findContentSE (content : List Char) :
    List Char → Option (List Char × List Char × List Char)
  | [] => none
  | c :: cs =>
    if c = '\n' then none
    else
      let content2 := content ++ [c]
      match tailSE cs with
      | some (s, e) => some (content2, s, e)
      | none => findContentSE content2 cs

/-- The greedy `\s*` before the lazy group of `channel_se`: try the
maximal whitespace run first, then backtrack to shorter runs. -/
def tryWsSE (r : List Char) : Nat → Option (List Char × List Char × List Char)
  | 0 => findContentSE [] r
  | k + 1 =>
    match findContentSE [] (r.drop (k + 1)) with
    | some res => some res
    | none => tryWsSE r k

/-- Prefix matcher for `@\w+\s*-\s*(.+?)\s+S(\d+)\s*EP(\d+)`
(`channel_se`); yields (title, season, episode). -/
def tryChannelSE (l : List Char) : Option (List Char × List Char × List Char) := do
  let r0 ← reqCh '@' l
  let pw := takeWord r0
  if pw.1.isEmpty then none
  else
    let r2 := (takeSpaces pw.2).2
    let r3 ← reqCh '-' r2
    tryWsSE r3 (takeSpaces r3).1.length

/-- The terminator `(?:\s*\[|$)` of `channel_bracket`, tried at a given
position (`$` also matches just before a terminal newline). -/
def termCB (r : List Char) : Bool :=
  (match (takeSpaces r).2 with
   | '[' :: _ => true
   | _ => false) || r.isEmpty || r == ['\n']

/-- Lazy `(.+?)` of `channel_bracket`. -/
def findContentCB (content : List Char) : List Char → Option (List Char)
  | [] => none
  | c :: cs =>
    if c = '\n' then none
    else
      let content2 := content ++ [c]
      if termCB cs then some content2 else findContentCB content2 cs

/-- Greedy-then-backtracking `\s*` before the lazy group of
`channel_bracket`. -/
def tryWsCB (r : List Char) : Nat → Option (List Char)
  | 0 => findContentCB [] r
  | k + 1 =>
    match findContentCB [] (r.drop (k + 1)) with
    | some res => some res
    | none => tryWsCB r k

/-- Prefix matcher for
`@\w+\s*-\s*\[S(\d+)\s*EP(\d+)\]\s*(.+?)(?:\s*\[|$)` (`channel_bracket`);
yields (season, episode, title). -/
def tryChannelBracket (l : List Char) :
    Option (List Char × List Char × List Char) := do
  let r0 ← reqCh '@' l
  let pw := takeWord r0
  if pw.1.isEmpty then none
  else do
    let r2 := (takeSpaces pw.2).2
    let r3 ← reqCh '-' r2
    let r4 := (takeSpaces r3).2
    let r5 ← reqCh '[' r4
    let r6 ← reqCI 'S' r5
    let (s, r7) ← digits1 r6
    let r8 := (takeSpaces r7).2
    let r9 ← reqCI 'E' r8
    let r10 ← reqCI 'P' r9
    let (e, r11) ← digits1 r10
    let r12 ← reqCh ']' r11
    match tryWsCB r12 (takeSpaces r12).1.length with
    | some content => pure (s, e, content)
    | none => none

/-- Prefix matcher for `\[S(\d+)\s*E(\d+)\]` (`bracket_se`). -/
def tryBracketSE (l : List Char) : Option (List Char × List Char) := do
  let r1 ← reqCh '[' l
  let r2 ← reqCI 'S' r1
  let (s, r3) ← digits1 r2
  let r4 := (takeSpaces r3).2
  let r5 ← reqCI 'E' r4
  let (e, r6) ← digits1 r5
  let _ ← reqCh ']' r6
  pure (s, e)

/-- Prefix matcher for `\[S(\d+)\s*EP(\d+)\]` (`bracket_sep`). -/
def tryBracketSEP (l : List Char) : Option (List Char × List Char) := do
  let r1 ← reqCh '[' l
  let r2 ← reqCI 'S' r1
  let (s, r3) ← digits1 r2
  let r4 := (takeSpaces r3).2
  let r5 ← reqCI 'E' r4
  let r6 ← reqCI 'P' r5
  let (e, r7) ← digits1 r6
  let _ ← reqCh ']' r7
  pure (s, e)

/-- Prefix matcher for `S(\d+)\s*E(\d+)` (`simple_se`). -/
def trySimpleSE (l : List Char) : Option (List Char × List Char) := do
  let r1 ← reqCI 'S' l
  let (s, r2) ← digits1 r1
  let r3 := (takeSpaces r2).2
  let r4 ← reqCI 'E' r3
  let (e, _) ← digits1 r4
  pure (s, e)

/-- Prefix matcher for `S(\d+)\s*EP(\d+)` (`simple_ep`). -/
def trySimpleEP (l : List Char) : Option (List Char × List Char) := do
  let r1 ← reqCI 'S' l
  let (s, r2) ← digits1 r1
  let r3 := (takeSpaces r2).2
  let r4 ← reqCI 'E' r3
  let r5 ← reqCI 'P' r4
  let (e, _) ← digits1 r5
  pure (s, e)

/-- Maximal run of `[^\[]` characters. -/
def takeNonLb : List Char → List Char × List Char
  | [] => ([], [])
  | c :: cs =>
    if c = '[' then ([], c :: cs)
    else
      let p := takeNonLb cs
      (c :: p.1, p.2)

/-- Prefix matcher for `<tv>\s*([^\[]+)\s*\[S(\d+)\]` of
`_parse_structured_format`; yields (title, season). -/
def tryStructTitle (l : List Char) : Option (List Char × List Char) := do
  let r0 ← reqSeqCI tvMarker l
  let r1 := (takeSpaces r0).2
  let pn := takeNonLb r1
  if pn.1.isEmpty then none
  else do
    let r3 ← reqCh '[' pn.2
    let r4 ← reqCI 'S' r3
    let (s, r5) ← digits1 r4
    let _ ← reqCh ']' r5
    pure (pn.1, s)

/-- Prefix matcher for `<EPISODE>\s*:\s*(\d+)`. -/
def tryStructEp (l : List Char) : Option (List Char) := do
  let r0 ← reqSeqCI epLabelChars l
  let r1 := (takeSpaces r0).2
  let r2 ← reqCh ':' r1
  let r3 := (takeSpaces r2).2
  let (e, _) ← digits1 r3
  pure e

/-- `AnimeParser._parse_structured_format`. -/
def parse_structured_format (text : List Char) : String × String × String :=
  let ts : String × String :=
    match searchO tryStructTitle text with
    | some (nm, s) => (String.mk (zfill2 s), String.mk (pyStrip nm))
    | none => ("01", "")
  let e : String :=
    match searchO tryStructEp text with
    | some d => String.mk (zfill2 d)
    | none => "01"
  (ts.1, e, ts.2)

/-- Does `\[S\d+` match at the start of the list? -/
def isBracketSStart : List Char → Bool
  | '[' :: c :: d :: _ => chEqCI c 'S' && pyIsDigit d
  | _ => false

/-- `re.split(r'\[S\d+', t)[0]`: the part before the first `[S<digit>`. -/
def splitBeforeBracketS : List Char → List Char
  | [] => []
  | c :: cs => if isBracketSStart (c :: cs) then [] else c :: splitBeforeBracketS cs

/-- Does `S\d+` match at the start of the list (case-insensitive)? -/
def isSStart : List Char → Bool
  | c :: d :: _ => chEqCI c 'S' && pyIsDigit d
  | _ => false

/-- `re.split(r'S\d+', t)[0]`: the part before the first `S<digit>`. -/
def splitBeforeS : List Char → List Char
  | [] => []
  | c :: cs => if isSStart (c :: cs) then [] else c :: splitBeforeS cs

/-- `AnimeParser.extract_episode_info` on a character list: the ordered
pattern cascade of the source, first successful family wins. -/
def extract_episode_info_l (text : List Char) : String × String × String :=
  let clean_text := pyStrip text
  if containsSub clean_text tvMarker && containsSub clean_text epLabelChars then
    parse_structured_format clean_text
  else
    match searchO tryChannelSE clean_text with
    | some (anime, s, e) =>
      (String.mk (zfill2 s), String.mk (zfill2 e), String.mk (pyStrip anime))
    | none =>
      match searchO tryChannelBracket clean_text with
      | some (s, e, anime) =>
        (String.mk (zfill2 s), String.mk (zfill2 e), String.mk (pyStrip anime))
      | none =>
        match searchO tryBracketSE clean_text with
        | some (s, e) =>
          (String.mk (zfill2 s), String.mk (zfill2 e),
           String.mk (pyStrip (splitBeforeBracketS clean_text)))
        | none =>
          match searchO tryBracketSEP clean_text with
          | some (s, e) =>
            (String.mk (zfill2 s), String.mk (zfill2 e),
             String.mk (pyStrip (splitBeforeBracketS clean_text)))
          | none =>
            match searchO trySimpleSE clean_text with
            | some (s, e) =>
              (String.mk (zfill2 s), String.mk (zfill2 e),
               String.mk (pyStrip (splitBeforeS clean_text)))
            | none =>
              match searchO trySimpleEP clean_text with
              | some (s, e) =>
                (String.mk (zfill2 s), String.mk (zfill2 e),
                 String.mk (pyStrip (splitBeforeS clean_text)))
              | none => ("01", "01", String.mk clean_text)

/-- `AnimeParser.extract_episode_info`. -/
def extract_episode_info (s : String) : String × String × String :=
  extract_episode_info_l s.data

/-- Is the character `p` or `P` (the `[pP]` class)? -/
def isPChar (c : Char) : Bool := c = 'p' || c = 'P'

/-- Prefix matcher for `(\d+)[pP]` (first quality pattern). -/
def tryQP1 (l : List Char) : Option (List Char) := do
  let (d, r) ← digits1 l
  match r with
  | c :: _ => if isPChar c then pure d else none
  | [] => none

/-- Prefix matcher for `\[(\d+)[pP]?\]` (second quality pattern). -/
def tryQP2 (l : List Char) : Option (List Char) := do
  let r1 ← reqCh '[' l
  let (d, r2) ← digits1 r1
  match r2 with
  | ']' :: _ => pure d
  | c :: ']' :: _ => if isPChar c then pure d else none
  | _ => none

/-- Prefix matcher for `<QUALITY>\s*:\s*(\d+)[pP]?` with the stylised
label (third quality pattern). -/
def tryQP3 (l : List Char) : Option (List Char) := do
  let r0 ← reqSeqCI qualLabelChars l
  let r1 := (takeSpaces r0).2
  let r2 ← reqCh ':' r1
  let r3 := (takeSpaces r2).2
  let (d, _) ← digits1 r3
  pure d

/-- Prefix matcher for `QUALITY\s*:\s*(\d+)[pP]?` (fourth quality
pattern). -/
def tryQP4 (l : List Char) : Option (List Char) := do
  let r0 ← reqSeqCI "QUALITY".data l
  let r1 := (takeSpaces r0).2
  let r2 ← reqCh ':' r1
  let r3 := (takeSpaces r2).2
  let (d, _) ← digits1 r3
  pure d

/-- Prefix matcher for `(\d+)\s*[pP]` (fifth quality pattern). -/
def tryQP5 (l : List Char) : Option (List Char) := do
  let (d, r) ← digits1 l
  let r1 := (takeSpaces r).2
  match r1 with
  | c :: _ => if isPChar c then pure d else none
  | [] => none

/-- The ordered quality pattern families of
`AnimeParser.extract_quality`, each already wrapped in `re.search`. -/
def quality_patterns : List (List Char → Option (List Char)) :=
  [searchO tryQP1, searchO tryQP2, searchO tryQP3, searchO tryQP4, searchO tryQP5]

/-- The pattern loop of `AnimeParser.extract_quality`: a matched digit
run is accepted only when its value is in `common_qualities`; otherwise
the search continues with the next pattern family, and `"720P"` is the
final default. -/
def qualityLoop : List (List Char → Option (List Char)) → List Char → String
  | [], _ => "720P"
  | p :: ps, t =>
    match p t with
    | some d =>
      if common_qualities.contains (strToNat d) then String.mk d ++ "P"
      else qualityLoop ps t
    | none => qualityLoop ps t

/-- `AnimeParser.extract_quality`. -/
def extract_quality (s : String) : String := qualityLoop quality_patterns s.data

/-- The ordered `language_mappings` table of
`AnimeParser.extract_language` (insertion order of the Python dict). -/
def language_mappings : List (List Char × String) :=
  [(tamilKeyChars, "Tam"), ("tamil".data, "Tam"), ("tam".data, "Tam"),
   ("english".data, "Eng"), ("eng".data, "Eng"),
   ("multi audio".data, "Multi"), ("multi".data, "Multi"),
   ("dual audio".data, "Dual"), ("dual".data, "Dual")]

/-- First table entry whose key is a substring of the text. -/
def lookupLang (t : List Char) : Option String :=
  match language_mappings.find? (fun p => containsSub t p.1) with
  | some p => some p.2
  | none => none

/-- Maximal run of `[^,\n\]]` characters (the captured audio value). -/
def takeAudioVal : List Char → List Char × List Char
  | [] => ([], [])
  | c :: cs =>
    if c = ',' || c = '\n' || c = ']' then ([], c :: cs)
    else
      let p := takeAudioVal cs
      (c :: p.1, p.2)

/-- The `\s*:\s*([^,\n\]]+)` part after an audio label. -/
def audioRest (r : List Char) : Option (List Char) := do
  let r1 := (takeSpaces r).2
  let r2 ← reqCh ':' r1
  let r3 := (takeSpaces r2).2
  let pv := takeAudioVal r3
  if pv.1.isEmpty then none else pure pv.1

/-- Prefix matcher for `(?:A<UDIO>|Audio)\s*:\s*([^,\n\]]+)`, stylised
alternative first. -/
def tryAudio (l : List Char) : Option (List Char) :=
  match reqSeqCI audioLabelChars l with
  | some r => audioRest r
  | none =>
    match reqSeqCI "Audio".data l with
    | some r => audioRest r
    | none => none

/-- The full-text fallback scan of `AnimeParser.extract_language`. -/
def langFallback (text : List Char) : String :=
  match lookupLang (pyLower text) with
  | some lang => lang
  | none => ""

/-- `AnimeParser.extract_language`. -/
def extract_language (s : String) : String :=
  match searchO tryAudio s.data with
  | some v =>
    match lookupLang (pyLower (pyStrip v)) with
    | some lang => lang
    | none => langFallback s.data
  | none => langFallback s.data

/-! ### `AnimeParser.clean_anime_name` -/

/-- Anchored `^@\w+\s*-\s*` removal. -/
def stripChannelPfx (l : List Char) : List Char :=
  match l with
  | '@' :: r0 =>
    let pw := takeWord r0
    if pw.1.isEmpty then l
    else
      match (takeSpaces pw.2).2 with
      | '-' :: r2 => (takeSpaces r2).2
      | _ => l
  | _ => l

/-- Scan to the first closing character (the lazy `.*?` of a
`\[.*?\]`-style span; `.` cannot match a newline). -/
def spanTo (cl : Char) : List Char → Option (List Char)
  | [] => none
  | c :: cs =>
    if c = cl then some cs
    else if c = '\n' then none
    else spanTo cl cs

/-- Fuelled worker for `removeSpans`. -/
def removeSpansAux (oc cl : Char) : Nat → List Char → List Char
  | 0, l => l
  | _ + 1, [] => []
  | fuel + 1, c :: cs =>
    if c = oc then
      match spanTo cl cs with
      | some rest => removeSpansAux oc cl fuel rest
      | none => c :: removeSpansAux oc cl fuel cs
    else c :: removeSpansAux oc cl fuel cs

/-- `re.sub(r'\[.*?\]', '', s)` (and the parenthesis analogue): remove
all non-overlapping lazily-delimited spans. -/
def removeSpans (oc cl : Char) (l : List Char) : List Char :=
  removeSpansAux oc cl l.length l

/-- Anchored `^\s*-\s*` removal. -/
def stripLeadDash (l : List Char) : List Char :=
  match (takeSpaces l).2 with
  | '-' :: r => (takeSpaces r).2
  | _ => l

/-- Does `\s*-\s*$` match at the start of the list? -/
def isTrailDash (l : List Char) : Bool :=
  match (takeSpaces l).2 with
  | '-' :: r => ((takeSpaces r).2).isEmpty
  | _ => false

/-- `re.sub(r'\s*-\s*$', '', s)`: drop from the leftmost position where
only whitespace, a dash and trailing whitespace remain. -/
def stripTrailDash : List Char → List Char
  | [] => []
  | c :: cs => if isTrailDash (c :: cs) then [] else c :: stripTrailDash cs

/-- Fuelled worker for `replaceWordCI`; `prevWord` tracks whether the
preceding original character was a word character (for `\b`). -/
def replaceWordAux (w repl : List Char) : Nat → Bool → List Char → List Char
  | 0, _, l => l
  | _ + 1, _, [] => []
  | fuel + 1, prevWord, c :: cs =>
    if prevWord then c :: replaceWordAux w repl fuel (pyIsWord c) cs
    else
      match reqSeqCI w (c :: cs) with
      | some rest =>
        (match rest with
         | [] => repl ++ replaceWordAux w repl fuel true rest
         | d :: _ =>
           if pyIsWord d then c :: replaceWordAux w repl fuel (pyIsWord c) cs
           else repl ++ replaceWordAux w repl fuel true rest)
      | none => c :: replaceWordAux w repl fuel (pyIsWord c) cs

/-- `re.sub(rf'\b{old}\b', new, s, flags=re.IGNORECASE)`. -/
def replaceWordCI (w repl : String) (l : List Char) : List Char :=
  replaceWordAux w.data repl.data l.length false l

/-- The punctuation set removed by `clean_anime_name`
(`[!@#$%^&*(),.?":{}|<>]`). -/
def punctChars : List Char :=
  ['!', '@', '#', '$', '%', '^', '&', '*', '(', ')', ',', '.', '?', '"',
   ':', Char.ofNat 123, Char.ofNat 125, '|', '<', '>']

/-- `AnimeParser.clean_anime_name`. -/
def clean_anime_name (s : String) : String :=
  if s = "" then ""
  else
    let n0 := stripChannelPfx s.data
    let n1 := removeSpans '[' ']' n0
    let n2 := removeSpans '(' ')' n1
    let n3 := stripLeadDash n2
    let n4 := stripTrailDash n3
    let n5 := replaceWordCI "Tamil" "Tam" n4
    let n6 := replaceWordCI "English" "Eng" n5
    let n7 := replaceWordCI "Dubbed" "Dub" n6
    let n8 := replaceWordCI "Subbed" "Sub" n7
    let n9 := n8.filter (fun c => !(punctChars.contains c))
    String.mk (pyStrip (collapseWs n9))

example : extract_episode_info "[S01 E05] Naruto [1080p]" = ("01", "05", "") := by decide
example : extract_episode_info "Naruto S2 E7" = ("02", "07", "Naruto") := by decide
example : extract_episode_info "@chan - Naruto S1 EP12" = ("01", "12", "Naruto") := by decide
example : extract_episode_info "@chan - [S3 EP4] Bleach [720p]" = ("03", "04", "Bleach") := by decide
example : extract_episode_info "[S01-E05]" = ("01", "01", "[S01-E05]") := by decide
example : extract_episode_info "" = ("01", "01", "") := by decide
example : extract_quality "[720p]" = "720P" := by decide
example : extract_quality "[999p]" = "720P" := by decide
example : extract_quality "hello" = "720P" := by decide
example : extract_quality "Q 480p here" = "480P" := by decide
example : extract_language "Tamil Dubbed" = "Tam" := by decide
example : extract_language "Audio : English stuff" = "Eng" := by decide
example : extract_language "nothing" = "" := by decide
example : clean_anime_name "@chan - Naruto [720p] (HD)" = "Naruto" := by decide
example : clean_anime_name "Tamil Dubbed Show" = "Tam Dub Show" := by decide
example : clean_anime_name "@" = "" := by decide

example : extract_episode_number "[S01-E07] Show [1080P].mkv".data [] = some 7 := by decide
example : extract_video_quality "[S01-E07] Show [1080P].mkv".data [] = some 1080 := by decide
example : extract_video_quality "[S01-E07] Show [999P].mkv".data [] = none := by decide
example : extract_episode_number "[S01-E05] Show.mkv".data [] = some 5 := by decide
example : extract_video_quality "[S01-E05] Show.mkv".data [] = none := by decide

/-! ### `UnifiedAnimeBot.parse_caption` -/

/-- The process-wide mutable attributes of `UnifiedAnimeBot` read and
written by `parse_caption`. -/
structure BotState where
  message_count : Nat
  prefixes : List String
  fixed_anime_name : String
deriving DecidableEq, Repr

/-- The constructor's default prefix list. -/
def default_prefixes : List String :=
  ["/leech -n", "/leech1 -n", "/leech2 -n", "/leechx -n", "/leech3 -n", "/leech5 -n"]

/-- Python `s.split(" - ", 1)[1]`: everything after the first
occurrence of the separator. -/
def splitAfterSep : List Char → List Char
  | [] => []
  | c :: cs =>
    if startsWithL (c :: cs) " - ".data then (c :: cs).drop 3
    else splitAfterSep cs

/-- `UnifiedAnimeBot.parse_caption`, with the mutated instance state
passed explicitly.  Note that `clean_caption` is computed exactly as in
the source and, exactly as in the source, never read afterwards: every
extractor receives `original_caption`. -/
def parse_caption (st : BotState) (caption : String) (user_id : Nat) :
    BotState × String :=
  let st2 : BotState := { st with message_count := st.message_count + 1 }
  if caption = "" then (st2, "")
  else
    let original_caption := String.mk (pyStrip caption.data)
    let clean_caption :=
      if containsSub original_caption.data " - ".data &&
          startsWithL original_caption.data ['@'] then
        String.mk (splitAfterSep original_caption.data)
      else original_caption
    let info := extract_episode_info original_caption
    let quality := extract_quality original_caption
    let language := extract_language original_caption
    let anime_name :=
      if st.fixed_anime_name != "" then st.fixed_anime_name
      else
        let n := clean_anime_name info.2.2
        if n = "" then "Unknown Anime" else n
    let anime_name2 :=
      if language != "" && !containsSub anime_name.data language.data then
        String.mk (pyStrip (anime_name ++ " " ++ language).data)
      else anime_name
    let season_episode := "[S" ++ info.1 ++ "-E" ++ info.2.1 ++ "]"
    let lowered := pyLower original_caption.data
    let extension :=
      if containsSub lowered ".mp4".data then ".mp4"
      else if containsSub lowered ".avi".data then ".avi"
      else ".mkv"
    let pfx :=
      if st.prefixes.isEmpty then "/leech -n"
      else st.prefixes.getD ((st2.message_count - 1) / 3 % st.prefixes.length) ""
    (st2, pfx ++ " " ++ season_episode ++ " " ++ anime_name2 ++ " [" ++ quality
          ++ "] [Single]" ++ extension)

/-- A sequence of `parse_caption` calls threading the shared state;
returns the final state and the produced captions in order. -/
def runCaptions (st : BotState) : List String → BotState × List String
  | [] => (st, [])
  | c :: cs =>
    let r := parse_caption st c 0
    let rest := runCaptions r.1 cs
    (rest.1, r.2 :: rest.2)

/-! ### `UnifiedAnimeBot.parse_bulk_message` -/

/-- One parsed bulk entry (the dict appended to `results`). -/
structure BulkEntry where
  anime_name : String
  episode : String
  quality : String
  file_name : String
  file_type : String
  url : String
deriving DecidableEq, Repr

/-- Maximal run of `[^\]]` characters. -/
def takeNonRb : List Char → List Char × List Char
  | [] => ([], [])
  | c :: cs =>
    if c = ']' then ([], c :: cs)
    else
      let p := takeNonRb cs
      (c :: p.1, p.2)

/-- Maximal run of `[^\s]` characters. -/
def takeNonSpace : List Char → List Char × List Char
  | [] => ([], [])
  | c :: cs =>
    if pyIsSpace c then ([], c :: cs)
    else
      let p := takeNonSpace cs
      (c :: p.1, p.2)

/-- One scan implementing both `re.findall(r'\[([^\]]+)\]', s)` (first
component) and `re.sub(r'\[([^\]]+)\]', '', s)` (second component):
non-overlapping spans, left to right. -/
def scanBrackets : Nat → List Char → List (List Char) × List Char
  | 0, l => ([], l)
  | _ + 1, [] => ([], [])
  | fuel + 1, c :: cs =>
    if c = '[' then
      let p := takeNonRb cs
      match p.2 with
      | ']' :: rest =>
        if p.1.isEmpty then
          let q := scanBrackets fuel cs
          (q.1, c :: q.2)
        else
          let q := scanBrackets fuel rest
          (p.1 :: q.1, q.2)
      | _ =>
        let q := scanBrackets fuel cs
        (q.1, c :: q.2)
    else
      let q := scanBrackets fuel cs
      (q.1, c :: q.2)

/-- First alternative `S\d+[-E]\d+` of the bulk episode-tag classifier
(`[-E]` is a character class matching one dash or one `E`). -/
def tryEpTagAlt1 (l : List Char) : Option Unit := do
  let r1 ← reqCI 'S' l
  let (_, r2) ← digits1 r1
  match r2 with
  | c :: r3 =>
    if c = '-' || chEqCI c 'E' then
      match digits1 r3 with
      | some _ => some ()
      | none => none
    else none
  | [] => none

/-- Second alternative `S\d+E\d+`. -/
def tryEpTagAlt2 (l : List Char) : Option Unit := do
  let r1 ← reqCI 'S' l
  let (_, r2) ← digits1 r1
  let r3 ← reqCI 'E' r2
  let _ ← digits1 r3
  pure ()

/-- Third alternative `EP?\d+` (greedy optional `P` with its
backtracking resolved: a `P` must be followed by digits to be kept, and
a `P` not followed by digits cannot be skipped since `P` is no digit). -/
def tryEpTagAlt3 (l : List Char) : Bool :=
  match reqCI 'E' l with
  | some r =>
    match r with
    | c :: r2 =>
      if chEqCI c 'P' then (digits1 r2).isSome else (digits1 r).isSome
    | [] => false
  | none => false

/-- `re.match(r'S\d+[-E]\d+|S\d+E\d+|EP?\d+', b, re.IGNORECASE)`. -/
def isEpisodeTag (b : List Char) : Bool :=
  (tryEpTagAlt1 b).isSome || (tryEpTagAlt2 b).isSome || tryEpTagAlt3 b

/-- `re.match(r'^\d{3,4}p?$', b)` (case-sensitive: no flag in the
source). -/
def isQualTag (b : List Char) : Bool :=
  let p := takeDigits b
  (p.1.length == 3 || p.1.length == 4) && (p.2.isEmpty || p.2 == ['p'])

/-- `b.lower() in ['single', 'batch', 'dual', 'multi']`. -/
def isTypeTag (b : List Char) : Bool :=
  let lb := pyLower b
  lb == "single".data || lb == "batch".data || lb == "dual".data ||
  lb == "multi".data

/-- Python `str.upper()` on one ASCII character. -/
def pyUpperCh (c : Char) : Char :=
  if 97 ≤ c.toNat ∧ c.toNat ≤ 122 then Char.ofNat (c.toNat - 32) else c

/-- Python `str.capitalize()`. -/
def pyCapitalize : List Char → List Char
  | [] => []
  | c :: cs => pyUpperCh c :: pyLower cs

/-- The `if/elif` bracket-classification loop of `parse_bulk_message`:
later matching spans overwrite earlier ones of the same kind. -/
def classifyBrackets :
    List (List Char) → String × String × String → String × String × String
  | [], acc => acc
  | b :: bs, (ep, q, ft) =>
    if isEpisodeTag b then classifyBrackets bs (String.mk b, q, ft)
    else if isQualTag b then
      classifyBrackets bs
        (ep, if b.getLast? = some 'p' then String.mk b else String.mk b ++ "p", ft)
    else if isTypeTag b then classifyBrackets bs (ep, q, String.mk (pyCapitalize b))
    else classifyBrackets bs (ep, q, ft)

/-- The `https?://[^\s]+` part of the bulk line pattern
(case-sensitive). -/
def matchUrl (l : List Char) : Option (List Char) :=
  match l with
  | 'h' :: 't' :: 't' :: 'p' :: rest =>
    match rest with
    | 's' :: ':' :: '/' :: '/' :: r2 =>
      let p := takeNonSpace r2
      if p.1.isEmpty then none else some ("https://".data ++ p.1)
    | ':' :: '/' :: '/' :: r2 =>
      let p := takeNonSpace r2
      if p.1.isEmpty then none else some ("http://".data ++ p.1)
    | _ => none
  | _ => none

/-- The `\s*-\s*(https?://[^\s]+)` suffix tried after a lazy-content
candidate. -/
def bulkTail (r : List Char) : Option (List Char) :=
  match (takeSpaces r).2 with
  | '-' :: r2 => matchUrl (takeSpaces r2).2
  | _ => none

/-- Lazy `(.+?)` of the bulk line pattern. -/
def bulkFindContent (content : List Char) :
    List Char → Option (List Char × List Char)
  | [] => none
  | c :: cs =>
    if c = '\n' then none
    else
      let content2 := content ++ [c]
      match bulkTail cs with
      | some url => some (content2, url)
      | none => bulkFindContent content2 cs

/-- Greedy-then-backtracking `\s*` after the entry number. -/
def bulkTryWs (r : List Char) : Nat → Option (List Char × List Char)
  | 0 => bulkFindContent [] r
  | k + 1 =>
    match bulkFindContent [] (r.drop (k + 1)) with
    | some res => some res
    | none => bulkTryWs r k

/-- `re.match(r'(\d+)\.\s*(.+?)\s*-\s*(https?://[^\s]+)', line)`;
yields (entry number, content, url). -/
def matchBulkLine (line : List Char) :
    Option (List Char × List Char × List Char) :=
  let pd := takeDigits line
  if pd.1.isEmpty then none
  else
    match pd.2 with
    | '.' :: r2 =>
      match bulkTryWs r2 (takeSpaces r2).1.length with
      | some (content, url) => some (pd.1, content, url)
      | none => none
    | _ => none

/-- `re.sub(r'\.(mkv|mp4|avi)$', '', name, re.IGNORECASE)` — the source
passes the flag in the `count` position, so the pattern stays
case-sensitive and only lowercase extensions are stripped. -/
def stripBulkExt (l : List Char) : List Char :=
  if ".mkv".data.isSuffixOf l || ".mp4".data.isSuffixOf l ||
      ".avi".data.isSuffixOf l then
    l.take (l.length - 4)
  else l

/-- One iteration of the `parse_bulk_message` line loop. -/
def parseBulkLine (raw : List Char) : Option BulkEntry :=
  let line := pyStrip raw
  if line.isEmpty then none
  else if startsWithL line bulkMarker then none
  else
    match matchBulkLine line with
    | none => none
    | some (num, content, url) =>
      let content_part := pyStrip content
      let scanned := scanBrackets content_part.length content_part
      let cls := classifyBrackets scanned.1
        (String.mk ('E' :: 'P' :: num), "720p", "Single")
      let an0 := pyStrip scanned.2
      let an1 := stripBulkExt an0
      let an2 := pyStrip (collapseWs an1)
      let anime_name :=
        if an2.isEmpty then "Unknown Anime " ++ String.mk num else String.mk an2
      some { anime_name := anime_name
             episode := cls.1
             quality := cls.2.1
             file_name := String.mk content_part
             file_type := cls.2.2
             url := String.mk url }

/-- `UnifiedAnimeBot.parse_bulk_message`. -/
def parse_bulk_message (text : String) : List BulkEntry :=
  (splitNl (pyStrip text.data)).filterMap parseBulkLine

example :
    parse_bulk_message "2. [S01E03] Foo [1080] [Batch] Bar.mkv - http://a/b c" =
      [{ anime_name := "Foo Bar", episode := "S01E03", quality := "1080p",
         file_name := "[S01E03] Foo [1080] [Batch] Bar.mkv",
         file_type := "Batch", url := "http://a/b" }] := by decide

/-! ### Sessions and `UnifiedAnimeBot.endsequence_command` -/

/-- The `user_sessions` mapping (user id to collected files). -/
abbrev Sessions := List (Nat × List VideoFile)

/-- Python `user_id in self.user_sessions` / `self.user_sessions[user_id]`. -/
def sessionsLookup (ss : Sessions) (uid : Nat) : Option (List VideoFile) :=
  match ss.find? (fun p => p.1 == uid) with
  | some p => some p.2
  | none => none

/-- Python `del self.user_sessions[user_id]`. -/
def sessionsErase (ss : Sessions) (uid : Nat) : Sessions :=
  ss.filter (fun p => p.1 != uid)

/-- The validity test of `endsequence_command`: a file is kept for
delivery exactly when it has both an episode number and a quality. -/
def is_valid_file (f : VideoFile) : Bool :=
  f.episode_number.isSome && f.video_quality.isSome

/-- `valid_files` of `endsequence_command`. -/
def valid_files (files : List VideoFile) : List VideoFile :=
  files.filter is_valid_file

/-- `invalid_files` of `endsequence_command`. -/
def invalid_files (files : List VideoFile) : List VideoFile :=
  files.filter (fun f => f.episode_number.isNone || f.video_quality.isNone)

/-- Sort key for the three fixed buckets (`x.episode_number`). -/
def epKey (f : VideoFile) : Nat := f.episode_number.getD 0

/-- Stable insertion (earlier arrivals stay before equal keys). -/
def insertByEp (x : VideoFile) : List VideoFile → List VideoFile
  | [] => [x]
  | y :: ys => if epKey y < epKey x then y :: insertByEp x ys else x :: y :: ys

/-- Stable ascending sort by episode number; agrees with Python's
stable `list.sort(key=lambda x: x.episode_number)`. -/
def sortByEp : List VideoFile → List VideoFile
  | [] => []
  | x :: xs => insertByEp x (sortByEp xs)

/-- Strict lexicographic comparison on
`(x.episode_number, x.video_quality or 0)`. -/
def otherKeyLt (a b : VideoFile) : Bool :=
  epKey a < epKey b ||
  (epKey a == epKey b && a.video_quality.getD 0 < b.video_quality.getD 0)

/-- Stable insertion for the "other" bucket. -/
def insertByEpQ (x : VideoFile) : List VideoFile → List VideoFile
  | [] => [x]
  | y :: ys => if otherKeyLt y x then y :: insertByEpQ x ys else x :: y :: ys

/-- Stable sort of the "other" bucket by
`(episode number, quality or 0)`. -/
def sortOther : List VideoFile → List VideoFile
  | [] => []
  | x :: xs => insertByEpQ x (sortOther xs)

/-- The fixed bucket `quality_groups[q]` (iteration order of the
session preserves arrival order, so the bucket is a filter). -/
def quality_bucket (q : Nat) (valid : List VideoFile) : List VideoFile :=
  valid.filter (fun f => f.video_quality == some q)

/-- `other_files` of `endsequence_command`. -/
def other_files (valid : List VideoFile) : List VideoFile :=
  valid.filter (fun f =>
    !(f.video_quality == some 480 || f.video_quality == some 720 ||
      f.video_quality == some 1080))

/-- The order in which `endsequence_command` sends the valid files:
bucket 480, then 720, then 1080, then the "other" files, each bucket
sorted as in the source. -/
def deliveryPlan (valid : List VideoFile) : List VideoFile :=
  sortByEp (quality_bucket 480 valid) ++ sortByEp (quality_bucket 720 valid) ++
  sortByEp (quality_bucket 1080 valid) ++ sortOther (other_files valid)

/-! ### Comparison definitions for the caption formatter

`parse_caption_noStrip` is `parse_caption` without the dead
`clean_caption` computation; `parse_caption_claimC5` follows the spec's
words for claim C5 instead of the source (the separator-stripped text is
fed to the extractors, except that quality, language and the
`@`-dependent season/episode family read the original text). -/

/-- `parse_caption` with the unused `clean_caption` computation removed
(the amended reading of claim C5). -/
def parse_caption_noStrip (st : BotState) (caption : String) (user_id : Nat) :
    BotState × String :=
  let st2 : BotState := { st with message_count := st.message_count + 1 }
  if caption = "" then (st2, "")
  else
    let original_caption := String.mk (pyStrip caption.data)
    let info := extract_episode_info original_caption
    let quality := extract_quality original_caption
    let language := extract_language original_caption
    let anime_name :=
      if st.fixed_anime_name != "" then st.fixed_anime_name
      else
        let n := clean_anime_name info.2.2
        if n = "" then "Unknown Anime" else n
    let anime_name2 :=
      if language != "" && !containsSub anime_name.data language.data then
        String.mk (pyStrip (anime_name ++ " " ++ language).data)
      else anime_name
    let season_episode := "[S" ++ info.1 ++ "-E" ++ info.2.1 ++ "]"
    let lowered := pyLower original_caption.data
    let extension :=
      if containsSub lowered ".mp4".data then ".mp4"
      else if containsSub lowered ".avi".data then ".avi"
      else ".mkv"
    let pfx :=
      if st.prefixes.isEmpty then "/leech -n"
      else st.prefixes.getD ((st2.message_count - 1) / 3 % st.prefixes.length) ""
    (st2, pfx ++ " " ++ season_episode ++ " " ++ anime_name2 ++ " [" ++ quality
          ++ "] [Single]" ++ extension)

/-- Modelled from the spec's sentence for claim C5: episode-info
extraction over the separator-stripped text, except that the
`@`-dependent channel family reads the original text. -/
def extract_episode_info_claimC5 (original stripped : List Char) :
    String × String × String :=
  let orig := pyStrip original
  let strp := pyStrip stripped
  if containsSub strp tvMarker && containsSub strp epLabelChars then
    parse_structured_format strp
  else
    match searchO tryChannelSE orig with
    | some (anime, s, e) =>
      (String.mk (zfill2 s), String.mk (zfill2 e), String.mk (pyStrip anime))
    | none =>
      match searchO tryChannelBracket orig with
      | some (s, e, anime) =>
        (String.mk (zfill2 s), String.mk (zfill2 e), String.mk (pyStrip anime))
      | none =>
        match searchO tryBracketSE strp with
        | some (s, e) =>
          (String.mk (zfill2 s), String.mk (zfill2 e),
           String.mk (pyStrip (splitBeforeBracketS strp)))
        | none =>
          match searchO tryBracketSEP strp with
          | some (s, e) =>
            (String.mk (zfill2 s), String.mk (zfill2 e),
             String.mk (pyStrip (splitBeforeBracketS strp)))
          | none =>
            match searchO trySimpleSE strp with
            | some (s, e) =>
              (String.mk (zfill2 s), String.mk (zfill2 e),
               String.mk (pyStrip (splitBeforeS strp)))
            | none =>
              match searchO trySimpleEP strp with
              | some (s, e) =>
                (String.mk (zfill2 s), String.mk (zfill2 e),
                 String.mk (pyStrip (splitBeforeS strp)))
              | none => ("01", "01", String.mk strp)

/-- Modelled from the spec's sentence for claim C5: the caption
formatter as the claim describes it, with the separator-stripped text
actually handed to the extractors. -/
def parse_caption_claimC5 (st : BotState) (caption : String) (user_id : Nat) :
    BotState × String :=
  let st2 : BotState := { st with message_count := st.message_count + 1 }
  if caption = "" then (st2, "")
  else
    let original_caption := String.mk (pyStrip caption.data)
    let clean_caption :=
      if containsSub original_caption.data " - ".data &&
          startsWithL original_caption.data ['@'] then
        String.mk (splitAfterSep original_caption.data)
      else original_caption
    let info := extract_episode_info_claimC5 original_caption.data clean_caption.data
    let quality := extract_quality original_caption
    let language := extract_language original_caption
    let anime_name :=
      if st.fixed_anime_name != "" then st.fixed_anime_name
      else
        let n := clean_anime_name info.2.2
        if n = "" then "Unknown Anime" else n
    let anime_name2 :=
      if language != "" && !containsSub anime_name.data language.data then
        String.mk (pyStrip (anime_name ++ " " ++ language).data)
      else anime_name
    let season_episode := "[S" ++ info.1 ++ "-E" ++ info.2.1 ++ "]"
    let lowered := pyLower original_caption.data
    let extension :=
      if containsSub lowered ".mp4".data then ".mp4"
      else if containsSub lowered ".avi".data then ".avi"
      else ".mkv"
    let pfx :=
      if st.prefixes.isEmpty then "/leech -n"
      else st.prefixes.getD ((st2.message_count - 1) / 3 % st.prefixes.length) ""
    (st2, pfx ++ " " ++ season_episode ++ " " ++ anime_name2 ++ " [" ++ quality
          ++ "] [Single]" ++ extension)

example :
    (parse_caption ⟨0, default_prefixes, ""⟩ "@S1E2 - Hello" 0).2 =
      "/leech -n [S01-E02] Unknown Anime [720P] [Single].mkv" := by decide
example :
    (parse_caption_claimC5 ⟨0, default_prefixes, ""⟩ "@S1E2 - Hello" 0).2 =
      "/leech -n [S01-E01] Hello [720P] [Single].mkv" := by decide

/-- Observable outcome of processing the end signal. -/
inductive EndOutcome where
  | noFiles : EndOutcome
  | noValidFiles : EndOutcome
  | delivered : List VideoFile → Nat → EndOutcome
deriving DecidableEq, Repr

/-- `UnifiedAnimeBot.endsequence_command`, reduced to its session and
sorting logic: the early `"No files received"` return leaves the
session mapping untouched; the two later branches delete the session;
`delivered` carries the send order and the count of files that failed
processing. -/
def endsequence_command (ss : Sessions) (uid : Nat) : Sessions × EndOutcome :=
  match sessionsLookup ss uid with
  | none => (ss, EndOutcome.noFiles)
  | some files =>
    if files.isEmpty then (ss, EndOutcome.noFiles)
    else
      let valid := valid_files files
      if valid.isEmpty then (sessionsErase ss uid, EndOutcome.noValidFiles)
      else
        (sessionsErase ss uid,
         EndOutcome.delivered (deliveryPlan valid) (files.length - valid.length))

/-! ## Shared helper lemmas -/

/-- `parse_caption` always increments the message counter by exactly one
(before the empty-caption check) and changes nothing else in the state. -/
theorem parse_caption_fst (st : BotState) (c : String) (u : Nat) :
    (parse_caption st c u).1 = { st with message_count := st.message_count + 1 } := by
  unfold parse_caption
  split <;> rfl

/-! ## Claim C1 -/

/-- Claim C1 (code bug): on the bulk line
`"1. [S01-E01] My Show [720p] - https://x/a.mkv"` the source produces
exactly one entry with the expected name, quality, type and url, but the
episode tag stays at the default `"EP1"`: the classifier pattern
`S\d+[-E]\d+|S\d+E\d+|EP?\d+` cannot match the canonical shape
`S01-E01` (its character class `[-E]` consumes one character, so a dash
must be followed directly by digits), while it does accept `S01E01` and
`S01-01`. -/
theorem c1_bulk_line_eval :
    parse_bulk_message "1. [S01-E01] My Show [720p] - https://x/a.mkv" =
      [{ anime_name := "My Show", episode := "EP1", quality := "720p",
         file_name := "[S01-E01] My Show [720p]", file_type := "Single",
         url := "https://x/a.mkv" }] ∧
    isEpisodeTag "S01-E01".data = false ∧
    isEpisodeTag "S01E01".data = true ∧
    isEpisodeTag "S01-01".data = true := by decide

/-! ## Claim C10 -/

/-- Claim C10: every `parse_caption` call increments the shared message
counter by exactly one before the empty-input check, so a call with an
empty caption returns the empty string while still advancing the
rotation state seen by later calls. -/
theorem c10_counter_increment :
    ∀ (st : BotState) (c : String) (u : Nat),
      (parse_caption st c u).1 =
        { st with message_count := st.message_count + 1 } ∧
      parse_caption st "" u =
        ({ st with message_count := st.message_count + 1 }, "") := by
  intro st c u
  exact ⟨parse_caption_fst st c u, rfl⟩

/-! ## Claim C3 -/

/-- Claim C3 counterexample: ending a session that holds zero ingested
files reports the distinct `noFiles` condition but does *not* destroy
the session — the requester's (empty) session entry survives the end
signal, contradicting "destroys … regardless of outcome — including
when the session holds zero ingested files". -/
theorem c3_counterexample :
    endsequence_command [(1, [])] 1 = ([(1, [])], EndOutcome.noFiles) ∧
    sessionsLookup (endsequence_command [(1, [])] 1).1 1 = some [] := by decide

/-- Claim C3 as amended: the end signal destroys the session whenever it
holds at least one ingested file (whether or not any file is valid), and
an absent or zero-file session is reported as the distinct `noFiles`
condition with the session mapping left unchanged — never a crash. -/
theorem c3_amended (ss : Sessions) (uid : Nat) :
    ((sessionsLookup ss uid).getD [] = [] →
      endsequence_command ss uid = (ss, EndOutcome.noFiles)) ∧
    (∀ files, sessionsLookup ss uid = some files → files ≠ [] →
      (endsequence_command ss uid).1 = sessionsErase ss uid ∧
      (endsequence_command ss uid).2 ≠ EndOutcome.noFiles) := by
  constructor
  · intro h
    unfold endsequence_command
    cases hs : sessionsLookup ss uid with
    | none => rfl
    | some files =>
      rw [hs] at h
      simp only [Option.getD_some] at h
      subst h
      rfl
  · intro files hs hne
    have hne' : files.isEmpty = false := by
      cases files with
      | nil => exact absurd rfl hne
      | cons a l => rfl
    unfold endsequence_command
    rw [hs]
    simp only [hne', Bool.false_eq_true, if_false]
    by_cases hv : (valid_files files).isEmpty = true
    · rw [if_pos hv]
      exact ⟨rfl, by simp⟩
    · rw [if_neg hv]
      exact ⟨rfl, by simp⟩

/-- Witness for `c3_amended` at concrete inputs: an empty session is
left in place with `noFiles`, and a one-file session (with an unparsable
file) is erased with an outcome other than `noFiles`. -/
theorem c3_amended_witness :
    endsequence_command [(2, [])] 2 = ([(2, [])], EndOutcome.noFiles) ∧
    ((endsequence_command [(3, [mkVideoFile "x" "noise" "" "document"])] 3).1 =
        sessionsErase [(3, [mkVideoFile "x" "noise" "" "document"])] 3 ∧
      (endsequence_command [(3, [mkVideoFile "x" "noise" "" "document"])] 3).2 ≠
        EndOutcome.noFiles) := by
  constructor
  · exact (c3_amended [(2, [])] 2).1 (by decide)
  · exact (c3_amended [(3, [mkVideoFile "x" "noise" "" "document"])] 3).2
      [mkVideoFile "x" "noise" "" "document"] (by decide) (by decide)

/-! ## Claim C4 -/

/-- Claim C4 counterexample: a collected file carrying an episode number
but no recognized quality (`[S01-E05] Show.mkv`) is counted as invalid
and excluded from every bucket — the session ends with `noValidFiles` —
contradicting "excluded … exactly when it has no episode number and no
quality" and "a file with an episode number … is placed in the \"other\"
bucket rather than excluded". -/
theorem c4_counterexample :
    (mkVideoFile "id" "[S01-E05] Show.mkv" "" "document").episode_number = some 5 ∧
    (mkVideoFile "id" "[S01-E05] Show.mkv" "" "document").video_quality = none ∧
    invalid_files [mkVideoFile "id" "[S01-E05] Show.mkv" "" "document"] =
      [mkVideoFile "id" "[S01-E05] Show.mkv" "" "document"] ∧
    valid_files [mkVideoFile "id" "[S01-E05] Show.mkv" "" "document"] = [] ∧
    endsequence_command [(1, [mkVideoFile "id" "[S01-E05] Show.mkv" "" "document"])] 1 =
      ([], EndOutcome.noValidFiles) := by decide

/-- Claim C4 as amended: a collected file is excluded from delivery and
counted invalid exactly when it lacks an episode number *or* lacks a
recognized quality; a file having both, whose quality is outside
{480, 720, 1080}, goes to the "other" bucket. -/
theorem c4_amended (files : List VideoFile) (f : VideoFile) :
    (f ∈ invalid_files files ↔
      f ∈ files ∧ (f.episode_number = none ∨ f.video_quality = none)) ∧
    (f ∈ valid_files files →
      f.video_quality ≠ some 480 → f.video_quality ≠ some 720 →
      f.video_quality ≠ some 1080 → f ∈ other_files (valid_files files)) ∧
    ((f.episode_number = none ∨ f.video_quality = none) →
      f ∉ valid_files files) := by
  refine ⟨?_, ?_, ?_⟩
  · simp [invalid_files, List.mem_filter, Option.isNone_iff_eq_none]
  · intro hmem h480 h720 h1080
    simp only [other_files, List.mem_filter]
    refine ⟨hmem, ?_⟩
    simp [h480, h720, h1080]
  · intro h hmem
    simp only [valid_files, List.mem_filter, is_valid_file] at hmem
    rcases h with h | h <;> simp [h] at hmem

/-- Witness for `c4_amended` at a concrete file with episode 2 and
quality 144 (recognized, but outside the three fixed buckets): it lands
in the "other" bucket. -/
theorem c4_amended_witness :
    mkVideoFile "a" "[S01-E02] X [144P]" "" "document" ∈
      other_files (valid_files [mkVideoFile "a" "[S01-E02] X [144P]" "" "document"]) := by
  exact (c4_amended [mkVideoFile "a" "[S01-E02] X [144P]" "" "document"]
      (mkVideoFile "a" "[S01-E02] X [144P]" "" "document")).2.1
    (by decide) (by decide) (by decide) (by decide)

/-! ## Claim C6 -/

/-- "No pattern family yields digits equal to a value in the fixed set"
as an executable condition over the source's own pattern list. -/
def noQualityAccepted (t : String) : Bool :=
  quality_patterns.all fun p =>
    (p t.data).all fun d => !(common_qualities.contains (strToNat d))

/-- If every pattern in the list either fails or captures digits outside
the fixed set, the loop returns the default. -/
theorem qualityLoop_default (ps : List (List Char → Option (List Char)))
    (t : List Char)
    (h : ps.all (fun p => (p t).all fun d => !(common_qualities.contains (strToNat d))) = true) :
    qualityLoop ps t = "720P" := by
  induction ps with
  | nil => rfl
  | cons p ps ih =>
    rw [List.all_cons, Bool.and_eq_true] at h
    obtain ⟨h1, h2⟩ := h
    unfold qualityLoop
    cases hp : p t with
    | none => exact ih h2
    | some d =>
      rw [hp] at h1
      simp only [Option.all_some, Bool.not_eq_true'] at h1
      simp only [h1, Bool.false_eq_true, if_false]
      exact ih h2

/-- Claim C6: for every value `s` of the fixed quality set, the quality
extractor maps `"[<s>p]"` to `"<s>P"`; whenever no pattern family yields
digits in the fixed set the extractor returns the default `"720P"`; and
(being a total Lean function over all strings) it never fails. -/
theorem c6_quality_contract :
    (∀ s ∈ common_qualities,
      extract_quality ("[" ++ Nat.repr s ++ "p]") = Nat.repr s ++ "P") ∧
    (∀ t : String, noQualityAccepted t = true → extract_quality t = "720P") := by
  constructor
  · decide
  · intro t h
    exact qualityLoop_default quality_patterns t.data h

/-- Witness for `c6_quality_contract` at `s = 480` and at the
pattern-free text `"hello"`. -/
theorem c6_quality_contract_witness :
    (480 ∈ common_qualities ∧ extract_quality "[480p]" = "480P") ∧
    (noQualityAccepted "hello" = true ∧ extract_quality "hello" = "720P") := by
  refine ⟨⟨by decide, ?_⟩, ⟨by decide, ?_⟩⟩
  · exact c6_quality_contract.1 480 (by decide)
  · exact c6_quality_contract.2 "hello" (by decide)

/-! ## Claim C9 -/

/-- The digit-run scanner only returns digits. -/
theorem takeDigits_all (l : List Char) : (takeDigits l).1.all pyIsDigit = true := by
  induction l with
  | nil => rfl
  | cons c cs ih =>
    unfold takeDigits
    by_cases h : pyIsDigit c = true
    · simp [h, ih]
    · simp [h]

/-- A successful `digits1` capture is a non-empty digit run. -/
theorem digits1_some (l d r : List Char) (h : digits1 l = some (d, r)) :
    d.all pyIsDigit = true ∧ d ≠ [] := by
  simp only [digits1] at h
  split at h
  · exact Option.noConfusion h
  · rename_i he
    have hp := Option.some.inj h
    have hd : d = (takeDigits l).1 := by rw [hp]
    constructor
    · rw [hd]
      exact takeDigits_all l
    · intro hnil
      apply he
      rw [← hd, hnil]
      rfl

/-- Padding yields width `max 2 (original width)`. -/
theorem zfill2_len (l : List Char) : (zfill2 l).length = max 2 l.length := by
  unfold zfill2
  split
  · rename_i h
    omega
  · rename_i h
    simp only [List.length_append, List.length_replicate]
    omega

/-- Padding only adds characters: the original string is a suffix. -/
theorem zfill2_suffix (l : List Char) : l <:+ zfill2 l := by
  unfold zfill2
  split
  · exact List.suffix_refl l
  · exact List.suffix_append _ l

/-- Padding a digit run yields a digit run. -/
theorem zfill2_all (l : List Char) (h : l.all pyIsDigit = true) :
    (zfill2 l).all pyIsDigit = true := by
  unfold zfill2
  split
  · exact h
  · rw [List.all_append, Bool.and_eq_true]
    refine ⟨?_, h⟩
    rw [List.all_eq_true]
    intro c hc
    rw [List.eq_of_mem_replicate hc]
    decide

/-- A successful search means the prefix matcher succeeded somewhere. -/
theorem searchO_some_exists {α} (m : List Char → Option α) (l : List Char)
    (r : α) (h : searchO m l = some r) : ∃ t, m t = some r := by
  induction l with
  | nil => exact ⟨[], h⟩
  | cons c cs ih =>
    unfold searchO at h
    cases hm : m (c :: cs) with
    | some x =>
      rw [hm] at h
      exact ⟨c :: cs, hm.trans h⟩
    | none =>
      rw [hm] at h
      exact ih h

/-- The season/episode captures of `tailSE` are digit runs. -/
theorem tailSE_digits (l s e : List Char) (h : tailSE l = some (s, e)) :
    s.all pyIsDigit = true ∧ e.all pyIsDigit = true := by
  simp only [tailSE] at h
  split at h
  · exact Option.noConfusion h
  · simp only [bind, Option.bind_eq_some] at h
    obtain ⟨r2, hr2, h⟩ := h
    obtain ⟨⟨s', r3⟩, hd1, h⟩ := h
    obtain ⟨r5, hr5, h⟩ := h
    obtain ⟨r6, hr6, h⟩ := h
    obtain ⟨⟨e', r7⟩, hd2, h⟩ := h
    simp only [Option.some.injEq, Prod.mk.injEq] at h
    obtain ⟨rfl, rfl⟩ := h
    exact ⟨(digits1_some _ _ _ hd1).1, (digits1_some _ _ _ hd2).1⟩

/-- The lazy-content search of `channel_se` only relays `tailSE`
captures. -/
theorem findContentSE_digits (ct l c2 s e : List Char)
    (h : findContentSE ct l = some (c2, s, e)) :
    s.all pyIsDigit = true ∧ e.all pyIsDigit = true := by
  induction l generalizing ct with
  | nil => exact Option.noConfusion h
  | cons c cs ih =>
    unfold findContentSE at h
    split at h
    · exact Option.noConfusion h
    · cases hts : tailSE cs with
      | some p =>
        obtain ⟨s', e'⟩ := p
        rw [hts] at h
        simp only [Option.some.injEq, Prod.mk.injEq] at h
        obtain ⟨-, rfl, rfl⟩ := h
        exact tailSE_digits _ _ _ hts
      | none =>
        rw [hts] at h
        exact ih _ h

/-- The whitespace-backtracking layer of `channel_se` only relays
captures. -/
theorem tryWsSE_digits (r : List Char) (k : Nat) (c2 s e : List Char)
    (h : tryWsSE r k = some (c2, s, e)) :
    s.all pyIsDigit = true ∧ e.all pyIsDigit = true := by
  induction k with
  | zero => exact findContentSE_digits _ _ _ _ _ h
  | succ n ih =>
    unfold tryWsSE at h
    cases hf : findContentSE [] (r.drop (n + 1)) with
    | some p =>
      obtain ⟨a, b, c⟩ := p
      rw [hf] at h
      simp only [Option.some.injEq, Prod.mk.injEq] at h
      obtain ⟨-, rfl, rfl⟩ := h
      exact findContentSE_digits _ _ _ _ _ hf
    | none =>
      rw [hf] at h
      exact ih h

/-- Season/episode captures of the `channel_se` matcher are digit runs. -/
theorem tryChannelSE_digits (l a s e : List Char)
    (h : tryChannelSE l = some (a, s, e)) :
    s.all pyIsDigit = true ∧ e.all pyIsDigit = true := by
  simp only [tryChannelSE, bind, Option.bind_eq_some] at h
  obtain ⟨r0, hr0, h⟩ := h
  split at h
  · exact Option.noConfusion h
  · simp only [Option.bind_eq_some] at h
    obtain ⟨r3, hr3, h⟩ := h
    exact tryWsSE_digits _ _ _ _ _ h

/-- Season/episode captures of the `channel_bracket` matcher are digit
runs. -/
theorem tryChannelBracket_digits (l s e a : List Char)
    (h : tryChannelBracket l = some (s, e, a)) :
    s.all pyIsDigit = true ∧ e.all pyIsDigit = true := by
  simp only [tryChannelBracket, bind, Option.bind_eq_some] at h
  obtain ⟨r0, hr0, h⟩ := h
  split at h
  · exact Option.noConfusion h
  · simp only [Option.bind_eq_some] at h
    obtain ⟨r3, hr3, h⟩ := h
    obtain ⟨r5, hr5, h⟩ := h
    obtain ⟨r6, hr6, h⟩ := h
    obtain ⟨⟨s', r7⟩, hd1, h⟩ := h
    obtain ⟨r9, hr9, h⟩ := h
    obtain ⟨r10, hr10, h⟩ := h
    obtain ⟨⟨e', r11⟩, hd2, h⟩ := h
    obtain ⟨r12, hr12, h⟩ := h
    cases hw : tryWsCB r12 (takeSpaces r12).1.length with
    | some content =>
      rw [hw] at h
      simp only [pure, Option.some.injEq, Prod.mk.injEq] at h
      obtain ⟨rfl, rfl, -⟩ := h
      exact ⟨(digits1_some _ _ _ hd1).1, (digits1_some _ _ _ hd2).1⟩
    | none =>
      rw [hw] at h
      exact Option.noConfusion h

/-- Season/episode captures of the `bracket_se` matcher are digit runs. -/
theorem tryBracketSE_digits (l s e : List Char)
    (h : tryBracketSE l = some (s, e)) :
    s.all pyIsDigit = true ∧ e.all pyIsDigit = true := by
  simp only [tryBracketSE, bind, Option.bind_eq_some] at h
  obtain ⟨r1, hr1, h⟩ := h
  obtain ⟨r2, hr2, h⟩ := h
  obtain ⟨⟨s', r3⟩, hd1, h⟩ := h
  obtain ⟨r5, hr5, h⟩ := h
  obtain ⟨⟨e', r6⟩, hd2, h⟩ := h
  obtain ⟨r7, hr7, h⟩ := h
  simp only [pure, Option.some.injEq, Prod.mk.injEq] at h
  obtain ⟨rfl, rfl⟩ := h
  exact ⟨(digits1_some _ _ _ hd1).1, (digits1_some _ _ _ hd2).1⟩

/-- Season/episode captures of the `bracket_sep` matcher are digit
runs. -/
theorem tryBracketSEP_digits (l s e : List Char)
    (h : tryBracketSEP l = some (s, e)) :
    s.all pyIsDigit = true ∧ e.all pyIsDigit = true := by
  simp only [tryBracketSEP, bind, Option.bind_eq_some] at h
  obtain ⟨r1, hr1, h⟩ := h
  obtain ⟨r2, hr2, h⟩ := h
  obtain ⟨⟨s', r3⟩, hd1, h⟩ := h
  obtain ⟨r5, hr5, h⟩ := h
  obtain ⟨r6, hr6, h⟩ := h
  obtain ⟨⟨e', r7⟩, hd2, h⟩ := h
  obtain ⟨r8, hr8, h⟩ := h
  simp only [pure, Option.some.injEq, Prod.mk.injEq] at h
  obtain ⟨rfl, rfl⟩ := h
  exact ⟨(digits1_some _ _ _ hd1).1, (digits1_some _ _ _ hd2).1⟩

/-- Season/episode captures of the `simple_se` matcher are digit runs. -/
theorem trySimpleSE_digits (l s e : List Char)
    (h : trySimpleSE l = some (s, e)) :
    s.all pyIsDigit = true ∧ e.all pyIsDigit = true := by
  simp only [trySimpleSE, bind, Option.bind_eq_some] at h
  obtain ⟨r1, hr1, h⟩ := h
  obtain ⟨⟨s', r2⟩, hd1, h⟩ := h
  obtain ⟨r4, hr4, h⟩ := h
  obtain ⟨⟨e', r5⟩, hd2, h⟩ := h
  simp only [pure, Option.some.injEq, Prod.mk.injEq] at h
  obtain ⟨rfl, rfl⟩ := h
  exact ⟨(digits1_some _ _ _ hd1).1, (digits1_some _ _ _ hd2).1⟩

/-- Season/episode captures of the `simple_ep` matcher are digit runs. -/
theorem trySimpleEP_digits (l s e : List Char)
    (h : trySimpleEP l = some (s, e)) :
    s.all pyIsDigit = true ∧ e.all pyIsDigit = true := by
  simp only [trySimpleEP, bind, Option.bind_eq_some] at h
  obtain ⟨r1, hr1, h⟩ := h
  obtain ⟨⟨s', r2⟩, hd1, h⟩ := h
  obtain ⟨r4, hr4, h⟩ := h
  obtain ⟨r5, hr5, h⟩ := h
  obtain ⟨⟨e', r6⟩, hd2, h⟩ := h
  simp only [pure, Option.some.injEq, Prod.mk.injEq] at h
  obtain ⟨rfl, rfl⟩ := h
  exact ⟨(digits1_some _ _ _ hd1).1, (digits1_some _ _ _ hd2).1⟩

/-- The season capture of the structured-title matcher is a digit run. -/
theorem tryStructTitle_digits (l nm s : List Char)
    (h : tryStructTitle l = some (nm, s)) : s.all pyIsDigit = true := by
  simp only [tryStructTitle, bind, Option.bind_eq_some] at h
  obtain ⟨r0, hr0, h⟩ := h
  split at h
  · exact Option.noConfusion h
  · simp only [Option.bind_eq_some] at h
    obtain ⟨r3, hr3, h⟩ := h
    obtain ⟨r4, hr4, h⟩ := h
    obtain ⟨⟨s', r5⟩, hd, h⟩ := h
    obtain ⟨r6, hr6, h⟩ := h
    simp only [pure, Option.some.injEq, Prod.mk.injEq] at h
    obtain ⟨-, rfl⟩ := h
    exact (digits1_some _ _ _ hd).1

/-- The episode capture of the structured-episode matcher is a digit
run. -/
theorem tryStructEp_digits (l e : List Char)
    (h : tryStructEp l = some e) : e.all pyIsDigit = true := by
  simp only [tryStructEp, bind, Option.bind_eq_some] at h
  obtain ⟨r0, hr0, h⟩ := h
  obtain ⟨r2, hr2, h⟩ := h
  obtain ⟨⟨e', r4⟩, hd, h⟩ := h
  simp only [pure, Option.some.injEq] at h
  subst h
  exact (digits1_some _ _ _ hd).1

/-- The padded season/episode components are digit strings of width at
least 2. -/
theorem strMk_zfill2_len (l : List Char) : 2 ≤ (String.mk (zfill2 l)).length := by
  show 2 ≤ (zfill2 l).length
  rw [zfill2_len]
  exact Nat.le_max_left 2 _

/-- The structured-emoji branch returns padded digit strings. -/
theorem parse_structured_format_good (t : List Char) :
    (parse_structured_format t).1.data.all pyIsDigit = true ∧
    2 ≤ (parse_structured_format t).1.length ∧
    (parse_structured_format t).2.1.data.all pyIsDigit = true ∧
    2 ≤ (parse_structured_format t).2.1.length := by
  unfold parse_structured_format
  cases h1 : searchO tryStructTitle t with
  | some p =>
    obtain ⟨nm, sd⟩ := p
    obtain ⟨t1, hm1⟩ := searchO_some_exists _ _ _ h1
    have hs := tryStructTitle_digits _ _ _ hm1
    cases h2 : searchO tryStructEp t with
    | some d =>
      obtain ⟨t2, hm2⟩ := searchO_some_exists _ _ _ h2
      have he := tryStructEp_digits _ _ hm2
      dsimp only
      exact ⟨zfill2_all _ hs, strMk_zfill2_len _, zfill2_all _ he,
        strMk_zfill2_len _⟩
    | none =>
      dsimp only
      exact ⟨zfill2_all _ hs, strMk_zfill2_len _, by decide, by decide⟩
  | none =>
    cases h2 : searchO tryStructEp t with
    | some d =>
      obtain ⟨t2, hm2⟩ := searchO_some_exists _ _ _ h2
      have he := tryStructEp_digits _ _ hm2
      dsimp only
      exact ⟨by decide, by decide, zfill2_all _ he, strMk_zfill2_len _⟩
    | none =>
      dsimp only
      exact ⟨by decide, by decide, by decide, by decide⟩

/-- Every branch of the episode-info cascade returns digit strings of
width at least 2 for season and episode. -/
theorem extract_episode_info_l_good (t : List Char) :
    (extract_episode_info_l t).1.data.all pyIsDigit = true ∧
    2 ≤ (extract_episode_info_l t).1.length ∧
    (extract_episode_info_l t).2.1.data.all pyIsDigit = true ∧
    2 ≤ (extract_episode_info_l t).2.1.length := by
  unfold extract_episode_info_l
  dsimp only
  split
  · exact parse_structured_format_good _
  · split
    · rename_i anime s e heq
      obtain ⟨tt, hm⟩ := searchO_some_exists _ _ _ heq
      obtain ⟨hs, he⟩ := tryChannelSE_digits _ _ _ _ hm
      exact ⟨zfill2_all _ hs, strMk_zfill2_len _, zfill2_all _ he,
        strMk_zfill2_len _⟩
    · split
      · rename_i s e anime heq
        obtain ⟨tt, hm⟩ := searchO_some_exists _ _ _ heq
        obtain ⟨hs, he⟩ := tryChannelBracket_digits _ _ _ _ hm
        exact ⟨zfill2_all _ hs, strMk_zfill2_len _, zfill2_all _ he,
          strMk_zfill2_len _⟩
      · split
        · rename_i s e heq
          obtain ⟨tt, hm⟩ := searchO_some_exists _ _ _ heq
          obtain ⟨hs, he⟩ := tryBracketSE_digits _ _ _ hm
          exact ⟨zfill2_all _ hs, strMk_zfill2_len _, zfill2_all _ he,
            strMk_zfill2_len _⟩
        · split
          · rename_i s e heq
            obtain ⟨tt, hm⟩ := searchO_some_exists _ _ _ heq
            obtain ⟨hs, he⟩ := tryBracketSEP_digits _ _ _ hm
            exact ⟨zfill2_all _ hs, strMk_zfill2_len _, zfill2_all _ he,
              strMk_zfill2_len _⟩
          · split
            · rename_i s e heq
              obtain ⟨tt, hm⟩ := searchO_some_exists _ _ _ heq
              obtain ⟨hs, he⟩ := trySimpleSE_digits _ _ _ hm
              exact ⟨zfill2_all _ hs, strMk_zfill2_len _, zfill2_all _ he,
                strMk_zfill2_len _⟩
            · split
              · rename_i s e heq
                obtain ⟨tt, hm⟩ := searchO_some_exists _ _ _ heq
                obtain ⟨hs, he⟩ := trySimpleEP_digits _ _ _ hm
                exact ⟨zfill2_all _ hs, strMk_zfill2_len _, zfill2_all _ he,
                  strMk_zfill2_len _⟩
              · dsimp only
                exact ⟨by decide, by decide, by decide, by decide⟩

/-- Claim C9: for every input (the empty string included) the
episode-info extractor returns season and episode as digit strings of
width at least 2 (defaulting to `"01"`); zero-padding only ever adds
characters (the unpadded run is a suffix of the result and the width is
`max 2 (original width)`); `"S1 E3"` yields `("01","03")` and
`"S12 E345"` yields `("12","345")` unchanged. -/
theorem c9_zero_padding :
    (∀ t : String,
      (extract_episode_info t).1.data.all pyIsDigit = true ∧
      2 ≤ (extract_episode_info t).1.length ∧
      (extract_episode_info t).2.1.data.all pyIsDigit = true ∧
      2 ≤ (extract_episode_info t).2.1.length) ∧
    (∀ l : List Char, (zfill2 l).length = max 2 l.length ∧ l <:+ zfill2 l) ∧
    extract_episode_info "S1 E3" = ("01", "03", "") ∧
    extract_episode_info "S12 E345" = ("12", "345", "") := by
  refine ⟨?_, ?_, by decide, by decide⟩
  · intro t
    exact extract_episode_info_l_good t.data
  · intro l
    exact ⟨zfill2_len l, zfill2_suffix l⟩

/-! ## Claim C2 -/

/-- `searchO` fails when the prefix matcher fails at every suffix. -/
theorem searchO_eq_none {α} (m : List Char → Option α) (l : List Char)
    (h : ∀ t, t <:+ l → m t = none) : searchO m l = none := by
  induction l with
  | nil => exact h [] (List.suffix_refl [])
  | cons c cs ih =>
    unfold searchO
    rw [h (c :: cs) (List.suffix_refl _)]
    exact ih fun t ht => h t (ht.trans (List.suffix_cons c cs))

/-- A suffix of an append is an append of a suffix, or a suffix of the
right part. -/
theorem suffix_append_cases {α} (xs r t : List α) (h : t <:+ xs ++ r) :
    (∃ ds, ds <:+ xs ∧ t = ds ++ r) ∨ t <:+ r := by
  induction xs with
  | nil => exact Or.inr h
  | cons x xs' ih =>
    rw [List.cons_append, List.suffix_cons_iff] at h
    rcases h with rfl | h
    · exact Or.inl ⟨x :: xs', List.suffix_refl _, by rw [List.cons_append]⟩
    · rcases ih h with ⟨ds, hds, rfl⟩ | h2
      · exact Or.inl ⟨ds, hds.trans (List.suffix_cons x xs'), rfl⟩
      · exact Or.inr h2

/-- The suffixes of the canonical tag `[S<ss>-E<ee>]`. -/
theorem c2_suffix_shape (ss ee t : List Char)
    (h : t <:+ ('[' :: 'S' :: (ss ++ '-' :: 'E' :: (ee ++ [']'])))) :
    t = '[' :: 'S' :: (ss ++ '-' :: 'E' :: (ee ++ [']'])) ∨
    t = 'S' :: (ss ++ '-' :: 'E' :: (ee ++ [']'])) ∨
    (∃ ds, ds <:+ ss ∧ t = ds ++ '-' :: 'E' :: (ee ++ [']'])) ∨
    t = 'E' :: (ee ++ [']']) ∨
    (∃ ds, ds <:+ ee ∧ t = ds ++ [']']) ∨
    t = [] := by
  rw [List.suffix_cons_iff] at h
  rcases h with rfl | h
  · exact Or.inl rfl
  rw [List.suffix_cons_iff] at h
  rcases h with rfl | h
  · exact Or.inr (Or.inl rfl)
  rcases suffix_append_cases _ _ _ h with ⟨ds, hds, rfl⟩ | h2
  · exact Or.inr (Or.inr (Or.inl ⟨ds, hds, rfl⟩))
  rw [List.suffix_cons_iff] at h2
  rcases h2 with rfl | h2
  · exact Or.inr (Or.inr (Or.inl ⟨[], List.nil_suffix, rfl⟩))
  rw [List.suffix_cons_iff] at h2
  rcases h2 with rfl | h2
  · exact Or.inr (Or.inr (Or.inr (Or.inl rfl)))
  rcases suffix_append_cases _ _ _ h2 with ⟨ds, hds, rfl⟩ | h3
  · exact Or.inr (Or.inr (Or.inr (Or.inr (Or.inl ⟨ds, hds, rfl⟩))))
  rw [List.suffix_cons_iff] at h3
  rcases h3 with rfl | h3
  · exact Or.inr (Or.inr (Or.inr (Or.inr (Or.inl ⟨[], List.nil_suffix, rfl⟩))))
  · exact Or.inr (Or.inr (Or.inr (Or.inr (Or.inr (List.suffix_nil.mp h3)))))

/-- A digit's codepoint bounds. -/
theorem pyIsDigit_bounds {c : Char} (h : pyIsDigit c = true) :
    48 ≤ c.toNat ∧ c.toNat ≤ 57 := by
  simp only [pyIsDigit, Bool.and_eq_true, decide_eq_true_eq] at h
  exact h

/-- A digit differs from any non-digit character. -/
theorem pyIsDigit_ne_of {c x : Char} (h : pyIsDigit c = true)
    (hx : pyIsDigit x = false) : c ≠ x := by
  intro he
  rw [he] at h
  exact absurd (h.symm.trans hx) (by decide)

/-- A digit never matches `S` case-insensitively. -/
theorem digit_not_S {c : Char} (h : pyIsDigit c = true) :
    chEqCI c 'S' = false := by
  have hb := pyIsDigit_bounds h
  simp only [chEqCI]
  rw [show Char.toNat 'S' = 83 from rfl,
    show lowAsciiN 83 = 115 from rfl]
  unfold lowAsciiN
  rw [if_neg (by omega)]
  rw [beq_eq_false_iff_ne]
  omega

/-- A greedy digit run stops exactly at the first non-digit. -/
theorem takeDigits_digits_append (ds : List Char) (c : Char) (r : List Char)
    (hds : ds.all pyIsDigit = true) (hc : pyIsDigit c = false) :
    takeDigits (ds ++ c :: r) = (ds, c :: r) := by
  induction ds with
  | nil =>
    unfold takeDigits
    simp [hc]
  | cons d ds' ih =>
    rw [List.all_cons, Bool.and_eq_true] at hds
    obtain ⟨hd, hds'⟩ := hds
    rw [List.cons_append]
    unfold takeDigits
    simp [hd, ih hds']

/-- Substring search fails when the needle's head occurs nowhere. -/
theorem containsSub_ne_head (l : List Char) (m0 : Char) (ms : List Char)
    (h : ∀ c ∈ l, c ≠ m0) : containsSub l (m0 :: ms) = false := by
  induction l with
  | nil => rfl
  | cons c cs ih =>
    unfold containsSub
    have hne := h c (List.mem_cons_self c cs)
    have hpf : (m0 :: ms).isPrefixOf (c :: cs) = false := by
      simp only [List.isPrefixOf, Bool.and_eq_false_iff]
      left
      rw [beq_eq_false_iff_ne]
      exact fun he => hne he.symm
    rw [hpf]
    simp only [Bool.false_eq_true, if_false]
    exact ih fun x hx => h x (List.mem_cons_of_mem c hx)

/-- `str.strip()` is the identity on text with non-space first and last
characters. -/
theorem pyStrip_fix (a : Char) (mid : List Char) (b : Char)
    (ha : pyIsSpace a = false) (hb : pyIsSpace b = false) :
    pyStrip (a :: (mid ++ [b])) = a :: (mid ++ [b]) := by
  unfold pyStrip
  rw [List.dropWhile_cons, ha]
  simp only [Bool.false_eq_true, if_false]
  rw [show (a :: (mid ++ [b])).reverse = b :: (mid.reverse ++ [a]) from by simp]
  rw [List.dropWhile_cons, hb]
  simp only [Bool.false_eq_true, if_false]
  simp

/-- `channel_se` needs a leading `@`. -/
theorem tryChannelSE_ne (c : Char) (cs : List Char) (h : c ≠ '@') :
    tryChannelSE (c :: cs) = none := by
  simp [tryChannelSE, reqCh, h]

/-- `channel_bracket` needs a leading `@`. -/
theorem tryChannelBracket_ne (c : Char) (cs : List Char) (h : c ≠ '@') :
    tryChannelBracket (c :: cs) = none := by
  simp [tryChannelBracket, reqCh, h]

/-- `bracket_se` needs a leading `[`. -/
theorem tryBracketSE_ne (c : Char) (cs : List Char) (h : c ≠ '[') :
    tryBracketSE (c :: cs) = none := by
  simp [tryBracketSE, reqCh, h]

/-- `bracket_sep` needs a leading `[`. -/
theorem tryBracketSEP_ne (c : Char) (cs : List Char) (h : c ≠ '[') :
    tryBracketSEP (c :: cs) = none := by
  simp [tryBracketSEP, reqCh, h]

/-- `simple_se` needs a leading `S`/`s`. -/
theorem trySimpleSE_ne (c : Char) (cs : List Char) (h : chEqCI c 'S' = false) :
    trySimpleSE (c :: cs) = none := by
  simp [trySimpleSE, reqCI, h]

/-- `simple_ep` needs a leading `S`/`s`. -/
theorem trySimpleEP_ne (c : Char) (cs : List Char) (h : chEqCI c 'S' = false) :
    trySimpleEP (c :: cs) = none := by
  simp [trySimpleEP, reqCI, h]

/-- `bracket_se` rejects the whole canonical tag: after `[S` and the
season digits, the dash is neither whitespace nor `E`. -/
theorem tryBracketSE_T (ss ee : List Char) (hss : ss.all pyIsDigit = true) :
    tryBracketSE ('[' :: 'S' :: (ss ++ '-' :: 'E' :: (ee ++ [']']))) = none := by
  have ht := takeDigits_digits_append ss '-' ('E' :: (ee ++ [']'])) hss (by decide)
  cases ss with
  | nil =>
    simp only [List.nil_append] at ht
    simp [tryBracketSE, reqCh, reqCI, digits1, ht, takeSpaces,
      (by decide : chEqCI 'S' 'S' = true), (by decide : chEqCI '-' 'E' = false),
      (by decide : pyIsSpace '-' = false)]
  | cons d ds =>
    rw [List.cons_append] at ht
    simp [tryBracketSE, reqCh, reqCI, digits1, ht, takeSpaces,
      (by decide : chEqCI 'S' 'S' = true), (by decide : chEqCI '-' 'E' = false),
      (by decide : pyIsSpace '-' = false)]

/-- `bracket_sep` rejects the whole canonical tag. -/
theorem tryBracketSEP_T (ss ee : List Char) (hss : ss.all pyIsDigit = true) :
    tryBracketSEP ('[' :: 'S' :: (ss ++ '-' :: 'E' :: (ee ++ [']']))) = none := by
  have ht := takeDigits_digits_append ss '-' ('E' :: (ee ++ [']'])) hss (by decide)
  cases ss with
  | nil =>
    simp only [List.nil_append] at ht
    simp [tryBracketSEP, reqCh, reqCI, digits1, ht, takeSpaces,
      (by decide : chEqCI 'S' 'S' = true), (by decide : chEqCI '-' 'E' = false),
      (by decide : pyIsSpace '-' = false)]
  | cons d ds =>
    rw [List.cons_append] at ht
    simp [tryBracketSEP, reqCh, reqCI, digits1, ht, takeSpaces,
      (by decide : chEqCI 'S' 'S' = true), (by decide : chEqCI '-' 'E' = false),
      (by decide : pyIsSpace '-' = false)]

/-- `simple_se` rejects the suffix starting at the tag's `S`. -/
theorem trySimpleSE_ST (ss ee : List Char) (hss : ss.all pyIsDigit = true) :
    trySimpleSE ('S' :: (ss ++ '-' :: 'E' :: (ee ++ [']']))) = none := by
  have ht := takeDigits_digits_append ss '-' ('E' :: (ee ++ [']'])) hss (by decide)
  cases ss with
  | nil =>
    simp only [List.nil_append] at ht
    simp [trySimpleSE, reqCI, digits1, ht, takeSpaces,
      (by decide : chEqCI 'S' 'S' = true), (by decide : chEqCI '-' 'E' = false),
      (by decide : pyIsSpace '-' = false)]
  | cons d ds =>
    rw [List.cons_append] at ht
    simp [trySimpleSE, reqCI, digits1, ht, takeSpaces,
      (by decide : chEqCI 'S' 'S' = true), (by decide : chEqCI '-' 'E' = false),
      (by decide : pyIsSpace '-' = false)]

/-- `simple_ep` rejects the suffix starting at the tag's `S`. -/
theorem trySimpleEP_ST (ss ee : List Char) (hss : ss.all pyIsDigit = true) :
    trySimpleEP ('S' :: (ss ++ '-' :: 'E' :: (ee ++ [']']))) = none := by
  have ht := takeDigits_digits_append ss '-' ('E' :: (ee ++ [']'])) hss (by decide)
  cases ss with
  | nil =>
    simp only [List.nil_append] at ht
    simp [trySimpleEP, reqCI, digits1, ht, takeSpaces,
      (by decide : chEqCI 'S' 'S' = true), (by decide : chEqCI '-' 'E' = false),
      (by decide : pyIsSpace '-' = false)]
  | cons d ds =>
    rw [List.cons_append] at ht
    simp [trySimpleEP, reqCI, digits1, ht, takeSpaces,
      (by decide : chEqCI 'S' 'S' = true), (by decide : chEqCI '-' 'E' = false),
      (by decide : pyIsSpace '-' = false)]

/-- `channel_se` matches nowhere in the canonical tag (no `@`). -/
theorem c2_none_channelSE (ss ee : List Char) (hss : ss.all pyIsDigit = true)
    (hee : ee.all pyIsDigit = true) :
    searchO tryChannelSE ('[' :: 'S' :: (ss ++ '-' :: 'E' :: (ee ++ [']']))) = none := by
  apply searchO_eq_none
  intro t ht
  rcases c2_suffix_shape ss ee t ht with rfl | rfl | ⟨ds, hds, rfl⟩ | rfl | ⟨ds, hds, rfl⟩ | rfl
  · exact tryChannelSE_ne _ _ (by decide)
  · exact tryChannelSE_ne _ _ (by decide)
  · cases ds with
    | nil => exact tryChannelSE_ne _ _ (by decide)
    | cons d ds' =>
      have hd := List.all_eq_true.mp hss d (hds.subset (List.mem_cons_self d ds'))
      exact tryChannelSE_ne _ _ (pyIsDigit_ne_of hd (by decide))
  · exact tryChannelSE_ne _ _ (by decide)
  · cases ds with
    | nil => exact tryChannelSE_ne _ _ (by decide)
    | cons d ds' =>
      have hd := List.all_eq_true.mp hee d (hds.subset (List.mem_cons_self d ds'))
      exact tryChannelSE_ne _ _ (pyIsDigit_ne_of hd (by decide))
  · rfl

/-- `channel_bracket` matches nowhere in the canonical tag (no `@`). -/
theorem c2_none_channelBracket (ss ee : List Char) (hss : ss.all pyIsDigit = true)
    (hee : ee.all pyIsDigit = true) :
    searchO tryChannelBracket ('[' :: 'S' :: (ss ++ '-' :: 'E' :: (ee ++ [']']))) = none := by
  apply searchO_eq_none
  intro t ht
  rcases c2_suffix_shape ss ee t ht with rfl | rfl | ⟨ds, hds, rfl⟩ | rfl | ⟨ds, hds, rfl⟩ | rfl
  · exact tryChannelBracket_ne _ _ (by decide)
  · exact tryChannelBracket_ne _ _ (by decide)
  · cases ds with
    | nil => exact tryChannelBracket_ne _ _ (by decide)
    | cons d ds' =>
      have hd := List.all_eq_true.mp hss d (hds.subset (List.mem_cons_self d ds'))
      exact tryChannelBracket_ne _ _ (pyIsDigit_ne_of hd (by decide))
  · exact tryChannelBracket_ne _ _ (by decide)
  · cases ds with
    | nil => exact tryChannelBracket_ne _ _ (by decide)
    | cons d ds' =>
      have hd := List.all_eq_true.mp hee d (hds.subset (List.mem_cons_self d ds'))
      exact tryChannelBracket_ne _ _ (pyIsDigit_ne_of hd (by decide))
  · rfl

/-- `bracket_se` matches nowhere in the canonical tag (the dash breaks
the only `[`-headed position). -/
theorem c2_none_bracketSE (ss ee : List Char) (hss : ss.all pyIsDigit = true)
    (hee : ee.all pyIsDigit = true) :
    searchO tryBracketSE ('[' :: 'S' :: (ss ++ '-' :: 'E' :: (ee ++ [']']))) = none := by
  apply searchO_eq_none
  intro t ht
  rcases c2_suffix_shape ss ee t ht with rfl | rfl | ⟨ds, hds, rfl⟩ | rfl | ⟨ds, hds, rfl⟩ | rfl
  · exact tryBracketSE_T ss ee hss
  · exact tryBracketSE_ne _ _ (by decide)
  · cases ds with
    | nil => exact tryBracketSE_ne _ _ (by decide)
    | cons d ds' =>
      have hd := List.all_eq_true.mp hss d (hds.subset (List.mem_cons_self d ds'))
      exact tryBracketSE_ne _ _ (pyIsDigit_ne_of hd (by decide))
  · exact tryBracketSE_ne _ _ (by decide)
  · cases ds with
    | nil => exact tryBracketSE_ne _ _ (by decide)
    | cons d ds' =>
      have hd := List.all_eq_true.mp hee d (hds.subset (List.mem_cons_self d ds'))
      exact tryBracketSE_ne _ _ (pyIsDigit_ne_of hd (by decide))
  · rfl

/-- `bracket_sep` matches nowhere in the canonical tag. -/
theorem c2_none_bracketSEP (ss ee : List Char) (hss : ss.all pyIsDigit = true)
    (hee : ee.all pyIsDigit = true) :
    searchO tryBracketSEP ('[' :: 'S' :: (ss ++ '-' :: 'E' :: (ee ++ [']']))) = none := by
  apply searchO_eq_none
  intro t ht
  rcases c2_suffix_shape ss ee t ht with rfl | rfl | ⟨ds, hds, rfl⟩ | rfl | ⟨ds, hds, rfl⟩ | rfl
  · exact tryBracketSEP_T ss ee hss
  · exact tryBracketSEP_ne _ _ (by decide)
  · cases ds with
    | nil => exact tryBracketSEP_ne _ _ (by decide)
    | cons d ds' =>
      have hd := List.all_eq_true.mp hss d (hds.subset (List.mem_cons_self d ds'))
      exact tryBracketSEP_ne _ _ (pyIsDigit_ne_of hd (by decide))
  · exact tryBracketSEP_ne _ _ (by decide)
  · cases ds with
    | nil => exact tryBracketSEP_ne _ _ (by decide)
    | cons d ds' =>
      have hd := List.all_eq_true.mp hee d (hds.subset (List.mem_cons_self d ds'))
      exact tryBracketSEP_ne _ _ (pyIsDigit_ne_of hd (by decide))
  · rfl

/-- `simple_se` matches nowhere in the canonical tag (the dash breaks
the only `S`-headed position). -/
theorem c2_none_simpleSE (ss ee : List Char) (hss : ss.all pyIsDigit = true)
    (hee : ee.all pyIsDigit = true) :
    searchO trySimpleSE ('[' :: 'S' :: (ss ++ '-' :: 'E' :: (ee ++ [']']))) = none := by
  apply searchO_eq_none
  intro t ht
  rcases c2_suffix_shape ss ee t ht with rfl | rfl | ⟨ds, hds, rfl⟩ | rfl | ⟨ds, hds, rfl⟩ | rfl
  · exact trySimpleSE_ne _ _ (by decide)
  · exact trySimpleSE_ST ss ee hss
  · cases ds with
    | nil => exact trySimpleSE_ne _ _ (by decide)
    | cons d ds' =>
      have hd := List.all_eq_true.mp hss d (hds.subset (List.mem_cons_self d ds'))
      exact trySimpleSE_ne _ _ (digit_not_S hd)
  · exact trySimpleSE_ne _ _ (by decide)
  · cases ds with
    | nil => exact trySimpleSE_ne _ _ (by decide)
    | cons d ds' =>
      have hd := List.all_eq_true.mp hee d (hds.subset (List.mem_cons_self d ds'))
      exact trySimpleSE_ne _ _ (digit_not_S hd)
  · rfl

/-- `simple_ep` matches nowhere in the canonical tag. -/
theorem c2_none_simpleEP (ss ee : List Char) (hss : ss.all pyIsDigit = true)
    (hee : ee.all pyIsDigit = true) :
    searchO trySimpleEP ('[' :: 'S' :: (ss ++ '-' :: 'E' :: (ee ++ [']']))) = none := by
  apply searchO_eq_none
  intro t ht
  rcases c2_suffix_shape ss ee t ht with rfl | rfl | ⟨ds, hds, rfl⟩ | rfl | ⟨ds, hds, rfl⟩ | rfl
  · exact trySimpleEP_ne _ _ (by decide)
  · exact trySimpleEP_ST ss ee hss
  · cases ds with
    | nil => exact trySimpleEP_ne _ _ (by decide)
    | cons d ds' =>
      have hd := List.all_eq_true.mp hss d (hds.subset (List.mem_cons_self d ds'))
      exact trySimpleEP_ne _ _ (digit_not_S hd)
  · exact trySimpleEP_ne _ _ (by decide)
  · cases ds with
    | nil => exact trySimpleEP_ne _ _ (by decide)
    | cons d ds' =>
      have hd := List.all_eq_true.mp hee d (hds.subset (List.mem_cons_self d ds'))
      exact trySimpleEP_ne _ _ (digit_not_S hd)
  · rfl

/-- The TV marker occurs nowhere in the canonical tag. -/
theorem c2_marker_free (ss ee : List Char) (hss : ss.all pyIsDigit = true)
    (hee : ee.all pyIsDigit = true) :
    containsSub ('[' :: 'S' :: (ss ++ '-' :: 'E' :: (ee ++ [']']))) tvMarker = false := by
  have hm : tvMarker = Char.ofNat 0xf8ff ::
      ([0xfc, 0xec, 0x222b].map Char.ofNat) := rfl
  rw [hm]
  apply containsSub_ne_head
  intro c hc
  simp only [List.mem_cons, List.mem_append, List.mem_singleton] at hc
  rcases hc with rfl | rfl | hcs | rfl | rfl | hce | rfl | hfalse
  · decide
  · decide
  · exact pyIsDigit_ne_of (List.all_eq_true.mp hss c hcs) (by decide)
  · decide
  · decide
  · exact pyIsDigit_ne_of (List.all_eq_true.mp hee c hce) (by decide)
  · decide
  · exact absurd hfalse (List.not_mem_nil c)

/-- The canonical tag is already stripped. -/
theorem c2_strip (ss ee : List Char) :
    pyStrip ('[' :: 'S' :: (ss ++ '-' :: 'E' :: (ee ++ [']']))) =
      '[' :: 'S' :: (ss ++ '-' :: 'E' :: (ee ++ [']'])) := by
  have hsh : ('[' :: 'S' :: (ss ++ '-' :: 'E' :: (ee ++ [']']))) =
      '[' :: (('S' :: ss ++ '-' :: 'E' :: ee) ++ [']']) := by simp
  rw [hsh]
  exact pyStrip_fix '[' _ ']' (by decide) (by decide)

/-- Claim C2 counterexample: the extractor can produce season `"01"`,
episode `"05"` (from `"S1 E5"`), but parsing the produced canonical tag
`"[S01-E05]"` yields episode `"01"`, not `"05"` — the canonical
hyphenated tag matches none of the extractor's patterns. -/
theorem c2_counterexample :
    extract_episode_info "S1 E5" = ("01", "05", "") ∧
    extract_episode_info "[S01-E05]" = ("01", "01", "[S01-E05]") ∧
    (extract_episode_info "[S01-E05]").2.1 ≠ "05" := by decide

/-- Claim C2 as amended: for every season and episode digit string the
extractor can produce, parsing the produced canonical `[S<SS>-E<EE>]`
tag yields the *defaults* `("01", "01")` with the whole tag as title —
so the round trip preserves season/episode exactly when both are
`"01"`. -/
theorem c2_amended (ss ee : List Char) (hss : ss.all pyIsDigit = true)
    (hee : ee.all pyIsDigit = true) :
    extract_episode_info_l ('[' :: 'S' :: (ss ++ '-' :: 'E' :: (ee ++ [']']))) =
      ("01", "01",
        String.mk ('[' :: 'S' :: (ss ++ '-' :: 'E' :: (ee ++ [']'])))) := by
  unfold extract_episode_info_l
  dsimp only
  rw [c2_strip ss ee, c2_marker_free ss ee hss hee, Bool.false_and]
  simp only [Bool.false_eq_true, if_false]
  rw [c2_none_channelSE ss ee hss hee, c2_none_channelBracket ss ee hss hee,
    c2_none_bracketSE ss ee hss hee, c2_none_bracketSEP ss ee hss hee,
    c2_none_simpleSE ss ee hss hee, c2_none_simpleEP ss ee hss hee]

/-- Witness for `c2_amended` at `SS = "01"`, `EE = "07"`. -/
theorem c2_amended_witness :
    ("01".data.all pyIsDigit = true) ∧ ("07".data.all pyIsDigit = true) ∧
    extract_episode_info_l
        ('[' :: 'S' :: ("01".data ++ '-' :: 'E' :: ("07".data ++ [']']))) =
      ("01", "01",
        String.mk ('[' :: 'S' :: ("01".data ++ '-' :: 'E' :: ("07".data ++ [']'])))) :=
  ⟨by decide, by decide, c2_amended "01".data "07".data (by decide) (by decide)⟩

/-! ## Claim C7 -/

/-- Running a list of captions adds its length to the shared counter and
leaves prefixes and fixed name unchanged. -/
theorem runCaptions_fst (st : BotState) (caps : List String) :
    (runCaptions st caps).1 =
      { st with message_count := st.message_count + caps.length } := by
  induction caps generalizing st with
  | nil => rfl
  | cons c cs ih =>
    have h1 : (runCaptions st (c :: cs)).1 =
        (runCaptions (parse_caption st c 0).1 cs).1 := rfl
    rw [h1, ih, parse_caption_fst]
    simp only [List.length_cons]
    obtain ⟨mc, ps, fn⟩ := st
    simp only [BotState.mk.injEq, and_true]
    omega

/-- The `i`-th produced caption is the result of one `parse_caption`
call on the state reached after the first `i` calls. -/
theorem runCaptions_getD (st : BotState) (caps : List String) (i : Nat)
    (h : i < caps.length) :
    (runCaptions st caps).2.getD i "" =
      (parse_caption ((runCaptions st (caps.take i)).1) (caps.getD i "") 0).2 := by
  induction caps generalizing st i with
  | nil => simp at h
  | cons c cs ih =>
    cases i with
    | zero => rfl
    | succ j =>
      have hj : j < cs.length := by
        simp only [List.length_cons] at h
        omega
      have h1 : (runCaptions st (c :: cs)).2.getD (j + 1) "" =
          (runCaptions (parse_caption st c 0).1 cs).2.getD j "" := rfl
      rw [h1, ih _ _ hj]
      rfl

/-- A `parse_caption` call with a non-empty caption and a non-empty
prefix list emits the prefix selected by
`(message_count - 1) / 3 % len(prefixes)` (with the already-incremented
counter), followed by a space and the rest of the caption. -/
theorem parse_caption_format (st : BotState) (c : String) (u : Nat)
    (hc : c ≠ "") (hp : st.prefixes ≠ []) :
    ∃ rest, (parse_caption st c u).2 =
      st.prefixes.getD (st.message_count / 3 % st.prefixes.length) "" ++
        (" " ++ rest) := by
  have hpe : st.prefixes.isEmpty = false := by
    cases hps : st.prefixes with
    | nil => exact absurd hps hp
    | cons a l => rfl
  unfold parse_caption
  rw [if_neg hc]
  simp only [hpe, Bool.false_eq_true, if_false, Nat.add_sub_cancel]
  exact ⟨_, by simp only [String.append_assoc]; rfl⟩

/-- Claim C7: starting from a fresh counter, the `i`-th global call of
the caption formatter (1-based; every call counts, whatever its input)
selects the prefix at index `(i-1)/3 mod len(prefixes)` — provided the
`i`-th caption is non-empty so that the selection is observable in the
output. -/
theorem c7_prefix_rotation (ps : List String) (fn : String)
    (caps : List String) (i : Nat) (hp : ps ≠ []) (h1 : 1 ≤ i)
    (h2 : i ≤ caps.length) (hc : caps.getD (i - 1) "" ≠ "") :
    ∃ rest, (runCaptions ⟨0, ps, fn⟩ caps).2.getD (i - 1) "" =
      ps.getD ((i - 1) / 3 % ps.length) "" ++ (" " ++ rest) := by
  have hj : i - 1 < caps.length := by omega
  rw [runCaptions_getD _ _ _ hj]
  have hS : (runCaptions ⟨0, ps, fn⟩ (caps.take (i - 1))).1 =
      { message_count := i - 1, prefixes := ps, fixed_anime_name := fn } := by
    rw [runCaptions_fst]
    simp only [List.length_take]
    congr 1
    omega
  rw [hS]
  exact parse_caption_format _ _ _ hc hp

/-- Witness for `c7_prefix_rotation` with two prefixes over nine calls:
call 2 selects prefix 0, call 5 selects prefix 1, call 7 selects
prefix 0 again (rotation period 6 = 3 × 2). -/
theorem c7_prefix_rotation_witness :
    (∃ r, (runCaptions ⟨0, ["A", "B"], ""⟩ (List.replicate 9 "x")).2.getD 1 "" =
      "A" ++ (" " ++ r)) ∧
    (∃ r, (runCaptions ⟨0, ["A", "B"], ""⟩ (List.replicate 9 "x")).2.getD 4 "" =
      "B" ++ (" " ++ r)) ∧
    (∃ r, (runCaptions ⟨0, ["A", "B"], ""⟩ (List.replicate 9 "x")).2.getD 6 "" =
      "A" ++ (" " ++ r)) :=
  ⟨c7_prefix_rotation ["A", "B"] "" (List.replicate 9 "x") 2 (by decide)
      (by decide) (by decide) (by decide),
   c7_prefix_rotation ["A", "B"] "" (List.replicate 9 "x") 5 (by decide)
      (by decide) (by decide) (by decide),
   c7_prefix_rotation ["A", "B"] "" (List.replicate 9 "x") 7 (by decide)
      (by decide) (by decide) (by decide)⟩

/-! ## Claim C8 -/

/-- Membership is preserved by stable insertion. -/
theorem mem_insertByEp {b x : VideoFile} {l : List VideoFile} :
    b ∈ insertByEp x l ↔ b = x ∨ b ∈ l := by
  induction l with
  | nil => simp [insertByEp]
  | cons y ys ih =>
    unfold insertByEp
    by_cases h : epKey y < epKey x
    · rw [if_pos h]
      simp only [List.mem_cons, ih]
      tauto
    · rw [if_neg h]
      simp only [List.mem_cons]

/-- Membership is preserved by the stable sort. -/
theorem mem_sortByEp {b : VideoFile} {l : List VideoFile} :
    b ∈ sortByEp l ↔ b ∈ l := by
  induction l with
  | nil => simp [sortByEp]
  | cons x xs ih =>
    unfold sortByEp
    rw [mem_insertByEp, ih, List.mem_cons]

/-- Stable insertion preserves ascending order by episode key. -/
theorem insertByEp_pairwise (x : VideoFile) (l : List VideoFile)
    (h : l.Pairwise fun a b => epKey a ≤ epKey b) :
    (insertByEp x l).Pairwise fun a b => epKey a ≤ epKey b := by
  induction l with
  | nil => simp [insertByEp]
  | cons y ys ih =>
    rw [List.pairwise_cons] at h
    obtain ⟨hy, hys⟩ := h
    unfold insertByEp
    by_cases hc : epKey y < epKey x
    · rw [if_pos hc, List.pairwise_cons]
      refine ⟨?_, ih hys⟩
      intro b hb
      rcases mem_insertByEp.1 hb with rfl | hb'
      · exact Nat.le_of_lt hc
      · exact hy b hb'
    · rw [if_neg hc, List.pairwise_cons]
      refine ⟨?_, ?_⟩
      · intro b hb
        rcases List.mem_cons.1 hb with rfl | hb'
        · exact Nat.le_of_not_lt hc
        · exact Nat.le_trans (Nat.le_of_not_lt hc) (hy b hb')
      · rw [List.pairwise_cons]
        exact ⟨hy, hys⟩

/-- The sorted bucket is ascending by episode number. -/
theorem sortByEp_pairwise (l : List VideoFile) :
    (sortByEp l).Pairwise fun a b => epKey a ≤ epKey b := by
  induction l with
  | nil => simp [sortByEp]
  | cons x xs ih => exact insertByEp_pairwise x _ ih

/-- Stability of the insertion step, stated through filters: inserting
`x` leaves the relative order of any fixed episode key unchanged, with
`x` in front of its own equals (they arrived later). -/
theorem filter_insertByEp (x : VideoFile) (l : List VideoFile) (k : Nat) :
    (insertByEp x l).filter (fun f => epKey f == k) =
      if epKey x == k then x :: l.filter (fun f => epKey f == k)
      else l.filter (fun f => epKey f == k) := by
  induction l with
  | nil => simp [insertByEp, List.filter_cons]
  | cons y ys ih =>
    unfold insertByEp
    by_cases h : epKey y < epKey x
    · rw [if_pos h, List.filter_cons, List.filter_cons, ih]
      by_cases hy : (epKey y == k) = true
      · by_cases hx : (epKey x == k) = true
        · exfalso
          rw [beq_iff_eq] at hy hx
          omega
        · simp [hy, hx]
      · by_cases hx : (epKey x == k) = true
        · simp [hy, hx]
        · simp [hy, hx]
    · rw [if_neg h, List.filter_cons]

/-- Stability of the full sort: for every episode key, the sorted bucket
lists the files of that key in their original arrival order. -/
theorem filter_sortByEp (l : List VideoFile) (k : Nat) :
    (sortByEp l).filter (fun f => epKey f == k) =
      l.filter (fun f => epKey f == k) := by
  induction l with
  | nil => rfl
  | cons x xs ih =>
    unfold sortByEp
    rw [filter_insertByEp, List.filter_cons]
    by_cases hx : (epKey x == k) = true
    · rw [if_pos hx, if_pos hx, ih]
    · rw [if_neg hx, if_neg hx, ih]

/-- A demo file for the sequencer scenario: episode `n`, quality `q`. -/
def c8demo (n q : Nat) : VideoFile :=
  mkVideoFile (Nat.repr n)
    ("[S01-E0" ++ Nat.repr n ++ "] Demo [" ++ Nat.repr q ++ "P].mkv") "" "document"

/-- Claim C8: valid files are delivered bucket by bucket in the fixed
order 480 → 720 → 1080 → other (the plan is literally the concatenation
of the four sorted buckets); each fixed bucket contains exactly the
valid files of its quality; within a fixed bucket files are ascending by
episode number, and stably so (per-key filters preserve arrival order);
the concrete scenario with episodes {3,1,2} at 480 and {5,4} at 720 plus
one unparsable file delivers 480:[1,2,3] then 720:[4,5] with one file
counted invalid. -/
theorem c8_delivery_order :
    (∀ valid : List VideoFile,
      deliveryPlan valid =
        sortByEp (quality_bucket 480 valid) ++ sortByEp (quality_bucket 720 valid) ++
          sortByEp (quality_bucket 1080 valid) ++ sortOther (other_files valid)) ∧
    (∀ (q : Nat) (valid : List VideoFile) (f : VideoFile),
      f ∈ sortByEp (quality_bucket q valid) ↔ f ∈ valid ∧ f.video_quality = some q) ∧
    (∀ l : List VideoFile, (sortByEp l).Pairwise fun a b => epKey a ≤ epKey b) ∧
    (∀ (l : List VideoFile) (k : Nat),
      (sortByEp l).filter (fun f => epKey f == k) =
        l.filter fun f => epKey f == k) ∧
    sortByEp [mkVideoFile "A" "[S01-E01] T [480P]" "" "document",
              mkVideoFile "B" "[S01-E01] T [480P]" "" "document"] =
      [mkVideoFile "A" "[S01-E01] T [480P]" "" "document",
       mkVideoFile "B" "[S01-E01] T [480P]" "" "document"] ∧
    endsequence_command
        [(1, [c8demo 3 480, c8demo 1 480, c8demo 2 480, c8demo 5 720,
              c8demo 4 720, mkVideoFile "j" "junk.mkv" "" "document"])] 1 =
      ([], EndOutcome.delivered
        [c8demo 1 480, c8demo 2 480, c8demo 3 480, c8demo 4 720, c8demo 5 720] 1) := by
  refine ⟨fun _ => rfl, ?_, sortByEp_pairwise, filter_sortByEp, by decide, by decide⟩
  intro q valid f
  rw [mem_sortByEp]
  simp [quality_bucket, List.mem_filter]

/-! ## Claim C5 -/

/-- Claim C5 counterexample: on `"@S1E2 - Hello"` (which starts with `@`
and contains `" - "`) the source's formatter and the claim's described
formatter disagree — the source's episode-info extraction runs on the
*original* text (matching `S1E2` before the separator and yielding
`[S01-E02]`), whereas the claim's stripped-text extraction would yield
`[S01-E01] Hello`. -/
theorem c5_counterexample :
    startsWithL "@S1E2 - Hello".data ['@'] = true ∧
    containsSub "@S1E2 - Hello".data " - ".data = true ∧
    (parse_caption ⟨0, default_prefixes, ""⟩ "@S1E2 - Hello" 0).2 =
      "/leech -n [S01-E02] Unknown Anime [720P] [Single].mkv" ∧
    (parse_caption_claimC5 ⟨0, default_prefixes, ""⟩ "@S1E2 - Hello" 0).2 =
      "/leech -n [S01-E01] Hello [720P] [Single].mkv" ∧
    (parse_caption ⟨0, default_prefixes, ""⟩ "@S1E2 - Hello" 0).2 ≠
      (parse_caption_claimC5 ⟨0, default_prefixes, ""⟩ "@S1E2 - Hello" 0).2 := by
  decide

/-- Claim C5 as amended: the separator-stripped text is computed but
never used — on every input (stripped or not) the formatter behaves
exactly like the variant without the stripping step; all extractors
receive the original un-stripped text. -/
theorem c5_amended (st : BotState) (c : String) (u : Nat) :
    parse_caption st c u = parse_caption_noStrip st c u := rfl
